import Mathlib

/-!
# Julian date <-> Gregorian calendar conversions

Shallow embedding of `src/c/cal2jd.c` and `src/c/jd2cal.c`, twice:

* with exact integers: `cal_to_jd`, `jd_to_cal` and their parts take C `int` as
  `Int`. They give what the algorithm computes when no `int` operation
  overflows.
* with 32-bit `int`: `cal_to_jd32`, `jd_to_cal32` and their parts wrap every
  `int` addition, subtraction and multiplication to 32 bits (`wrap32`), and
  convert a `double` outside the range of `int` as x86-64 does (`cast32`).
  `jd_to_cal32_eq_exact` and `completed_years_days32_eq` give ranges where the
  two agree.

In both, C `double` is `ℚ`: rounding is not modelled.

* C integer division `/` truncates toward zero: `Int.tdiv`.
* C remainder `%` takes the sign of the dividend: `Int.tmod`.
* `(int)floor(x)` is `⌊x⌋`, through `cast32` in the 32-bit code.
* The two `for` loops of `jd_to_cal` are recursive functions on the loop
  counter, with the loop condition tested on entry of every pass.
-/

namespace JulianDate

/-! ## Constants shared by both files (each file repeats them as `static const`) -/

/-- Both files: `static const int CYCLE_YEARS = 400;` -/
def CYCLE_YEARS : Int := 400

/-- Both files: `static const int SHORT_YR = 365;` -/
def SHORT_YR : Int := 365

/-- Both files: `static const int LONG_YR = 366;` -/
def LONG_YR : Int := 366

/-- Read of a C `int` array `a[i]`. An index outside the array is undefined
behaviour in C; the model returns `0` there, and every statement below keeps
the index inside the array. -/
def arrayAt (a : List Int) (i : Int) : Int :=
  if 0 ≤ i then a.getD i.toNat 0 else 0

/-! ## cal2jd.c -/

/-- January 0.0 of year 0, `static const double JAN_0_YEAR_0 = 1721058.5;` -/
def JAN_0_YEAR_0 : ℚ := 1721058.5

/-- Days before the first of each month in a 365-day year (cal2jd.c). -/
def DAYS_IN_PRECEDING_MONTHS : List Int :=
  [0, 31, 59, 90, 120, 151, 181, 212, 243, 273, 304, 334]

/-- The leap-year test that `cal_to_jd` computes inline into its local
`int is_leap` (cal2jd.c line 46). -/
def cal_to_jd_is_leap (y : Int) : Bool :=
  if Int.tmod y 100 = 0 then decide (Int.tmod y 400 = 0) else decide (Int.tmod y 4 = 0)

/-- The function `double cal_to_jd(int y, int m, double d)` of cal2jd.c, with
exact integers; `cal_to_jd32` is the same code with 32-bit `int`. -/
def cal_to_jd (y m : Int) (d : ℚ) : ℚ :=
  let y_p : Int := if y ≥ 0 then y - 1 else y
  let num_366yrs : Int := Int.tdiv y_p 4 - Int.tdiv y_p 100 + Int.tdiv y_p CYCLE_YEARS
  let num_366yrs : Int := if y > 0 then num_366yrs + 1 else num_366yrs
  let num_365yrs : Int := y - num_366yrs
  let res : ℚ := ((num_365yrs * SHORT_YR + num_366yrs * LONG_YR : Int) : ℚ)
  let res : ℚ := res + ((arrayAt DAYS_IN_PRECEDING_MONTHS (m - 1) : Int) : ℚ)
  let is_leap : Bool := cal_to_jd_is_leap y
  let res : ℚ := res + (if is_leap && decide (m - 1 ≥ 2) then 1 else 0)
  let res : ℚ := res + d
  let res : ℚ := res + JAN_0_YEAR_0
  res

/-! ## jd2cal.c -/

/-- January 1.0 of year 0, `static const double JAN_1_YEAR_0 = 1721058.5 + 1.0;` -/
def JAN_1_YEAR_0 : ℚ := 1721058.5 + 1.0

/-- Days in a 400-year cycle, computed as in jd2cal.c with `int` division. -/
def CYCLE_DAYS : Int :=
  SHORT_YR * CYCLE_YEARS + Int.tdiv CYCLE_YEARS 4 - Int.tdiv CYCLE_YEARS 100
    + Int.tdiv CYCLE_YEARS CYCLE_YEARS

/-- Month lengths of a 365-day year (jd2cal.c). -/
def MONTH_LEN : List Int := [31, 28, 31, 30, 31, 30, 31, 31, 30, 31, 30, 31]

/-- The function `static int is_leap(int y)` of jd2cal.c. -/
def is_leap (y : Int) : Bool :=
  if Int.tmod y 100 = 0 then decide (Int.tmod y 400 = 0) else decide (Int.tmod y 4 = 0)

/-- The function `int the_month_len(int y, int m)` of jd2cal.c. -/
def the_month_len (y m : Int) : Int :=
  let length : Int := arrayAt MONTH_LEN (m - 1)
  let has_leap_day : Bool := is_leap y && decide (m = 2)
  if has_leap_day then length + 1 else length

/-- Local variables of `jd_to_cal` that the year loop reads or writes. -/
structure YearState where
  /-- The loop counter `more`. -/
  more : Int
  /-- The variable `cursor`. -/
  cursor : ℚ
  /-- The variable `year`. -/
  year : Int
  deriving DecidableEq

/-- The loop `for(int more = 0; more < CYCLE_YEARS; ++more) {...}` of
`jd_to_cal`, entered in state `s`; the result is the state when the loop is
left, by its `break` or because `more` reached `CYCLE_YEARS`. -/
def year_loop (year_so_far : Int) (jd_minus_base : ℚ) (s : YearState) : YearState :=
  if s.more < CYCLE_YEARS then
    let year_length : Int := if is_leap (year_so_far + s.more) then LONG_YR else SHORT_YR
    if s.cursor + (year_length : ℚ) ≤ jd_minus_base then
      year_loop year_so_far jd_minus_base
        { more := s.more + 1, cursor := s.cursor + (year_length : ℚ), year := s.year + 1 }
    else s
  else s
termination_by (CYCLE_YEARS - s.more).toNat
decreasing_by
  simp only [CYCLE_YEARS] at *
  omega

/-- Local variables of `jd_to_cal` that the month loop reads or writes. -/
structure MonthState where
  /-- The variable `month`, loop index and result. -/
  month : Int
  /-- The variable `cursor`. -/
  cursor : ℚ
  /-- The variable `fractional_days`. -/
  fractional_days : ℚ
  deriving DecidableEq

/-- The loop `for(month = 1; month <= 12; ++month) {...}` of `jd_to_cal`,
entered in state `s`; the result is the state when the loop is left, by its
`break` or because `month` passed 12. -/
def month_loop (year : Int) (jd_minus_base : ℚ) (s : MonthState) : MonthState :=
  if s.month ≤ 12 then
    let month_length : Int := the_month_len year s.month
    if s.cursor + (month_length : ℚ) ≤ jd_minus_base then
      month_loop year jd_minus_base
        { s with month := s.month + 1, cursor := s.cursor + (month_length : ℚ) }
    else
      { s with fractional_days := jd_minus_base - s.cursor + 1.0 }
  else s
termination_by (13 - s.month).toNat
decreasing_by
  omega

/-- A calendar date, the three outputs `*y`, `*m`, `*d` of `jd_to_cal`. -/
structure CalDate where
  /-- The year, `*y`. -/
  y : Int
  /-- The month, `*m`. -/
  m : Int
  /-- The day with its fraction, `*d`. -/
  d : ℚ
  deriving DecidableEq

/-- The function `void jd_to_cal(double jd, int *y, int *m, double *d)` of
jd2cal.c, with exact integers; `jd_to_cal32` is the same code with 32-bit `int`. -/
def jd_to_cal (jd : ℚ) : CalDate :=
  let num_cycles : Int := ⌊(jd - JAN_1_YEAR_0) / (CYCLE_DAYS : ℚ)⌋
  let base_jd : ℚ := JAN_1_YEAR_0 + ((num_cycles * CYCLE_DAYS : Int) : ℚ)
  let year : Int := num_cycles * CYCLE_YEARS
  let jd_minus_base : ℚ := jd - base_jd
  let cursor : ℚ := 0.0
  let approx_days : Int := ⌊jd_minus_base⌋
  let more_years : Int := Int.tdiv approx_days LONG_YR - 1
  let afterBulk : ℚ × Int :=
    if more_years > 0 then
      let m_p : Int := more_years - 1
      let more_days : Int :=
        more_years * SHORT_YR + Int.tdiv m_p 4 - Int.tdiv m_p 100 + Int.tdiv m_p 400 + 1
      (cursor + (more_days : ℚ), year + more_years)
    else (cursor, year)
  let year_so_far : Int := afterBulk.2
  let ys : YearState :=
    year_loop year_so_far jd_minus_base { more := 0, cursor := afterBulk.1, year := afterBulk.2 }
  let ms : MonthState :=
    month_loop ys.year jd_minus_base { month := 1, cursor := ys.cursor, fractional_days := 0.0 }
  { y := ys.year, m := ms.month, d := ms.fractional_days }

/-! ## Auxiliary definitions used to state and prove the properties -/

/-- The `int` value `num_365yrs * SHORT_YR + num_366yrs * LONG_YR` that
`cal_to_jd` computes for year `y`: days from January 0 of year 0 to January 0
of year `y`. -/
def completed_years_days (y : Int) : Int :=
  let y_p : Int := if y ≥ 0 then y - 1 else y
  let num_366yrs : Int := Int.tdiv y_p 4 - Int.tdiv y_p 100 + Int.tdiv y_p CYCLE_YEARS
  let num_366yrs : Int := if y > 0 then num_366yrs + 1 else num_366yrs
  let num_365yrs : Int := y - num_366yrs
  num_365yrs * SHORT_YR + num_366yrs * LONG_YR

/-- The days that `cal_to_jd` adds for the completed months of year `y`
before month `m`, leap-day correction included. -/
def completed_months_days (y m : Int) : Int :=
  arrayAt DAYS_IN_PRECEDING_MONTHS (m - 1)
    + (if cal_to_jd_is_leap y && decide (m - 1 ≥ 2) then 1 else 0)

/-- The `year_length` of the year loop of `jd_to_cal`. -/
def year_length (y : Int) : Int := if is_leap y then LONG_YR else SHORT_YR

/-- The local `num_cycles` of `jd_to_cal`, exact integers. -/
def num_cycles_of (jd : ℚ) : Int := ⌊(jd - JAN_1_YEAR_0) / (CYCLE_DAYS : ℚ)⌋

/-- The local `jd_minus_base` of `jd_to_cal`, exact integers. -/
def jd_minus_base_of (jd : ℚ) : ℚ :=
  jd - (JAN_1_YEAR_0 + ((num_cycles_of jd * CYCLE_DAYS : Int) : ℚ))

/-- The local `more_years` of `jd_to_cal`, as a function of `jd_minus_base`. -/
def more_years_of (jd_minus_base : ℚ) : Int := Int.tdiv ⌊jd_minus_base⌋ LONG_YR - 1

/-- The pair (`cursor`, `year`) of `jd_to_cal` after step 2's `if (more_years > 0)`,
entered with `cursor = 0.0` and the given `year`. -/
def bulk_skip (year : Int) (jd_minus_base : ℚ) : ℚ × Int :=
  if more_years_of jd_minus_base > 0 then
    let m_p : Int := more_years_of jd_minus_base - 1
    let more_days : Int :=
      more_years_of jd_minus_base * SHORT_YR + Int.tdiv m_p 4 - Int.tdiv m_p 100
        + Int.tdiv m_p 400 + 1
    (0.0 + (more_days : ℚ), year + more_years_of jd_minus_base)
  else (0.0, year)

/-- The state of the year loop of `jd_to_cal` when it is left, exact integers. -/
def year_state_of (jd : ℚ) : YearState :=
  year_loop (bulk_skip (num_cycles_of jd * CYCLE_YEARS) (jd_minus_base_of jd)).2
    (jd_minus_base_of jd)
    { more := 0
      cursor := (bulk_skip (num_cycles_of jd * CYCLE_YEARS) (jd_minus_base_of jd)).1
      year := (bulk_skip (num_cycles_of jd * CYCLE_YEARS) (jd_minus_base_of jd)).2 }

/-- The state of the month loop of `jd_to_cal` when it is left, exact integers. -/
def month_state_of (jd : ℚ) : MonthState :=
  month_loop (year_state_of jd).year (jd_minus_base_of jd)
    { month := 1, cursor := (year_state_of jd).cursor, fractional_days := 0.0 }

/-- The local `base_jd` of `jd_to_cal`, exact integers. -/
def base_jd_of (jd : ℚ) : ℚ := JAN_1_YEAR_0 + ((num_cycles_of jd * CYCLE_DAYS : Int) : ℚ)

/-- The local `more_days` of `jd_to_cal` (computed when `more_years > 0`), as a
function of `jd_minus_base`. -/
def more_days_of (jd_minus_base : ℚ) : Int :=
  let more_years : Int := more_years_of jd_minus_base
  let m_p : Int := more_years - 1
  more_years * SHORT_YR + Int.tdiv m_p 4 - Int.tdiv m_p 100 + Int.tdiv m_p 400 + 1

/-- The final value of the local `num_366yrs` of `cal_to_jd`, computed with C's
truncating division. -/
def num_366yrs_of (y : Int) : Int :=
  let y_p : Int := if y ≥ 0 then y - 1 else y
  let num_366yrs : Int := Int.tdiv y_p 4 - Int.tdiv y_p 100 + Int.tdiv y_p CYCLE_YEARS
  if y > 0 then num_366yrs + 1 else num_366yrs

/-- The long-year count in the words of the specification:
`floor(yp/4) - floor(yp/100) + floor(yp/400)` with floor division, plus 1 when
`year > 0`, where `yp = year - 1` if `year ≥ 0` and `yp = year` otherwise. -/
def spec_long_year_count (year : Int) : Int :=
  let yp : Int := if year ≥ 0 then year - 1 else year
  Int.fdiv yp 4 - Int.fdiv yp 100 + Int.fdiv yp 400 + (if year > 0 then 1 else 0)

/-- A 32-bit two's-complement `int`: the value of `x` after wraparound. -/
def wrap32 (x : Int) : Int := (x + 2 ^ 31) % 2 ^ 32 - 2 ^ 31

/-- The `int` expression `num_365yrs * SHORT_YR + num_366yrs * LONG_YR` of
`cal_to_jd` with every `int` operation of lines 36..42 wrapped to 32 bits. -/
def completed_years_days32 (y : Int) : Int :=
  let y_p : Int := if y ≥ 0 then wrap32 (y - 1) else y
  let num_366yrs : Int :=
    wrap32 (wrap32 (Int.tdiv y_p 4 - Int.tdiv y_p 100) + Int.tdiv y_p CYCLE_YEARS)
  let num_366yrs : Int := if y > 0 then wrap32 (num_366yrs + 1) else num_366yrs
  let num_365yrs : Int := wrap32 (y - num_366yrs)
  wrap32 (wrap32 (num_365yrs * SHORT_YR) + wrap32 (num_366yrs * LONG_YR))

/-- Number of executions of the body of the year loop of `jd_to_cal` entered
in state `s`, the pass that executes `break` included. -/
def year_loop_passes (year_so_far : Int) (jd_minus_base : ℚ) (s : YearState) : Nat :=
  if s.more < CYCLE_YEARS then
    let year_length : Int := if is_leap (year_so_far + s.more) then LONG_YR else SHORT_YR
    if s.cursor + (year_length : ℚ) ≤ jd_minus_base then
      1 + year_loop_passes year_so_far jd_minus_base
        { more := s.more + 1, cursor := s.cursor + (year_length : ℚ), year := s.year + 1 }
    else 1
  else 0
termination_by (CYCLE_YEARS - s.more).toNat
decreasing_by
  simp only [CYCLE_YEARS] at *
  omega

/-- Number of executions of the body of the month loop of `jd_to_cal` entered
in state `s`, the pass that executes `break` included. -/
def month_loop_passes (year : Int) (jd_minus_base : ℚ) (s : MonthState) : Nat :=
  if s.month ≤ 12 then
    let month_length : Int := the_month_len year s.month
    if s.cursor + (month_length : ℚ) ≤ jd_minus_base then
      1 + month_loop_passes year jd_minus_base
        { s with month := s.month + 1, cursor := s.cursor + (month_length : ℚ) }
    else 1
  else 0
termination_by (13 - s.month).toNat
decreasing_by
  omega

/-- Total number of loop-body executions of the two loops of `jd_to_cal` on
input `jd`, exact integers. -/
def jd_to_cal_passes (jd : ℚ) : Nat :=
  year_loop_passes (bulk_skip (num_cycles_of jd * CYCLE_YEARS) (jd_minus_base_of jd)).2
    (jd_minus_base_of jd)
    { more := 0
      cursor := (bulk_skip (num_cycles_of jd * CYCLE_YEARS) (jd_minus_base_of jd)).1
      year := (bulk_skip (num_cycles_of jd * CYCLE_YEARS) (jd_minus_base_of jd)).2 }
  + month_loop_passes (year_state_of jd).year (jd_minus_base_of jd)
    { month := 1, cursor := (year_state_of jd).cursor, fractional_days := 0.0 }

/-! ## The same code with 32-bit `int`

`wrap32` is applied to the result of every `int` addition, subtraction and
multiplication, as a two's-complement machine computes it. Quotients and
remainders by 4, 100, 366 and 400 cannot overflow. `double` values stay exact
rationals; the evaluations below are at inputs whose intermediate values are
exactly representable. -/

/-- The conversion `(int)x` of an integral `double` value `n`. A value outside
the range of `int` is undefined behaviour in C; the model returns `INT_MIN`, the
result of the x86-64 conversion instruction. -/
def cast32 (n : Int) : Int :=
  if -2147483648 ≤ n ∧ n ≤ 2147483647 then n else -2147483648

/-- The function `cal_to_jd` of cal2jd.c with 32-bit `int`. -/
def cal_to_jd32 (y m : Int) (d : ℚ) : ℚ :=
  let y_p : Int := if y ≥ 0 then wrap32 (y - 1) else y
  let num_366yrs : Int :=
    wrap32 (wrap32 (Int.tdiv y_p 4 - Int.tdiv y_p 100) + Int.tdiv y_p CYCLE_YEARS)
  let num_366yrs : Int := if y > 0 then wrap32 (num_366yrs + 1) else num_366yrs
  let num_365yrs : Int := wrap32 (y - num_366yrs)
  let res : ℚ :=
    ((wrap32 (wrap32 (num_365yrs * SHORT_YR) + wrap32 (num_366yrs * LONG_YR)) : Int) : ℚ)
  let res : ℚ := res + ((arrayAt DAYS_IN_PRECEDING_MONTHS (wrap32 (m - 1)) : Int) : ℚ)
  let is_leap : Bool := cal_to_jd_is_leap y
  let res : ℚ := res + (if is_leap && decide (wrap32 (m - 1) ≥ 2) then 1 else 0)
  let res : ℚ := res + d
  let res : ℚ := res + JAN_0_YEAR_0
  res

/-- The year loop of `jd_to_cal` with 32-bit `int`: `year_so_far + more` and
`++year` wrap. -/
def year_loop32 (year_so_far : Int) (jd_minus_base : ℚ) (s : YearState) : YearState :=
  if s.more < CYCLE_YEARS then
    let year_length : Int :=
      if is_leap (wrap32 (year_so_far + s.more)) then LONG_YR else SHORT_YR
    if s.cursor + (year_length : ℚ) ≤ jd_minus_base then
      year_loop32 year_so_far jd_minus_base
        { more := s.more + 1, cursor := s.cursor + (year_length : ℚ),
          year := wrap32 (s.year + 1) }
    else s
  else s
termination_by (CYCLE_YEARS - s.more).toNat
decreasing_by
  simp only [CYCLE_YEARS] at *
  omega

/-- The function `jd_to_cal` of jd2cal.c with 32-bit `int`. The month loop has
no `int` operation that can overflow and is `month_loop`. -/
def jd_to_cal32 (jd : ℚ) : CalDate :=
  let num_cycles : Int := cast32 ⌊(jd - JAN_1_YEAR_0) / (CYCLE_DAYS : ℚ)⌋
  let base_jd : ℚ := JAN_1_YEAR_0 + ((wrap32 (num_cycles * CYCLE_DAYS) : Int) : ℚ)
  let year : Int := wrap32 (num_cycles * CYCLE_YEARS)
  let jd_minus_base : ℚ := jd - base_jd
  let cursor : ℚ := 0.0
  let approx_days : Int := cast32 ⌊jd_minus_base⌋
  let more_years : Int := wrap32 (Int.tdiv approx_days LONG_YR - 1)
  let afterBulk : ℚ × Int :=
    if more_years > 0 then
      let m_p : Int := wrap32 (more_years - 1)
      let more_days : Int :=
        wrap32 (wrap32 (wrap32 (wrap32 (wrap32 (more_years * SHORT_YR) + Int.tdiv m_p 4)
          - Int.tdiv m_p 100) + Int.tdiv m_p 400) + 1)
      (cursor + (more_days : ℚ), wrap32 (year + more_years))
    else (cursor, year)
  let year_so_far : Int := afterBulk.2
  let ys : YearState :=
    year_loop32 year_so_far jd_minus_base
      { more := 0, cursor := afterBulk.1, year := afterBulk.2 }
  let ms : MonthState :=
    month_loop ys.year jd_minus_base { month := 1, cursor := ys.cursor, fractional_days := 0.0 }
  { y := ys.year, m := ms.month, d := ms.fractional_days }

/-- The local `num_cycles` of `jd_to_cal`, 32-bit `int`. -/
def num_cycles32_of (jd : ℚ) : Int := cast32 ⌊(jd - JAN_1_YEAR_0) / (CYCLE_DAYS : ℚ)⌋

/-- The local `jd_minus_base` of `jd_to_cal`, 32-bit `int`. -/
def jd_minus_base32_of (jd : ℚ) : ℚ :=
  jd - (JAN_1_YEAR_0 + ((wrap32 (num_cycles32_of jd * CYCLE_DAYS) : Int) : ℚ))

/-- The local `more_years` of `jd_to_cal`, 32-bit `int`. -/
def more_years32_of (jd_minus_base : ℚ) : Int :=
  wrap32 (Int.tdiv (cast32 ⌊jd_minus_base⌋) LONG_YR - 1)

/-- The local `more_days` of `jd_to_cal`, 32-bit `int`. -/
def more_days32_of (jd_minus_base : ℚ) : Int :=
  let more_years : Int := more_years32_of jd_minus_base
  let m_p : Int := wrap32 (more_years - 1)
  wrap32 (wrap32 (wrap32 (wrap32 (wrap32 (more_years * SHORT_YR) + Int.tdiv m_p 4)
    - Int.tdiv m_p 100) + Int.tdiv m_p 400) + 1)

/-- The pair (`cursor`, `year`) of `jd_to_cal` after the bulk skip, 32-bit `int`. -/
def bulk_skip32 (year : Int) (jd_minus_base : ℚ) : ℚ × Int :=
  if more_years32_of jd_minus_base > 0 then
    (0.0 + ((more_days32_of jd_minus_base : Int) : ℚ),
      wrap32 (year + more_years32_of jd_minus_base))
  else (0.0, year)

/-- The state of the year loop of `jd_to_cal` when it is left, 32-bit `int`. -/
def year_state32_of (jd : ℚ) : YearState :=
  year_loop32 (bulk_skip32 (wrap32 (num_cycles32_of jd * CYCLE_YEARS)) (jd_minus_base32_of jd)).2
    (jd_minus_base32_of jd)
    { more := 0
      cursor := (bulk_skip32 (wrap32 (num_cycles32_of jd * CYCLE_YEARS))
        (jd_minus_base32_of jd)).1
      year := (bulk_skip32 (wrap32 (num_cycles32_of jd * CYCLE_YEARS))
        (jd_minus_base32_of jd)).2 }

/-- The state of the month loop of `jd_to_cal` when it is left, 32-bit `int`. -/
def month_state32_of (jd : ℚ) : MonthState :=
  month_loop (year_state32_of jd).year (jd_minus_base32_of jd)
    { month := 1, cursor := (year_state32_of jd).cursor, fractional_days := 0.0 }

/-- Number of executions of the body of the year loop with 32-bit `int`, entered
in state `s`, the pass that executes `break` included. -/
def year_loop32_passes (year_so_far : Int) (jd_minus_base : ℚ) (s : YearState) : Nat :=
  if s.more < CYCLE_YEARS then
    let year_length : Int :=
      if is_leap (wrap32 (year_so_far + s.more)) then LONG_YR else SHORT_YR
    if s.cursor + (year_length : ℚ) ≤ jd_minus_base then
      1 + year_loop32_passes year_so_far jd_minus_base
        { more := s.more + 1, cursor := s.cursor + (year_length : ℚ),
          year := wrap32 (s.year + 1) }
    else 1
  else 0
termination_by (CYCLE_YEARS - s.more).toNat
decreasing_by
  simp only [CYCLE_YEARS] at *
  omega

/-- Total number of loop-body executions of the two loops of `jd_to_cal` with
32-bit `int` on input `jd`. -/
def jd_to_cal32_passes (jd : ℚ) : Nat :=
  year_loop32_passes
    (bulk_skip32 (wrap32 (num_cycles32_of jd * CYCLE_YEARS)) (jd_minus_base32_of jd)).2
    (jd_minus_base32_of jd)
    { more := 0
      cursor := (bulk_skip32 (wrap32 (num_cycles32_of jd * CYCLE_YEARS))
        (jd_minus_base32_of jd)).1
      year := (bulk_skip32 (wrap32 (num_cycles32_of jd * CYCLE_YEARS))
        (jd_minus_base32_of jd)).2 }
  + month_loop_passes (year_state32_of jd).year (jd_minus_base32_of jd)
    { month := 1, cursor := (year_state32_of jd).cursor, fractional_days := 0.0 }

/-- Lexicographic "not later than" on (year, month, day). -/
def CalDate.notLater (a b : CalDate) : Prop :=
  a.y < b.y ∨ (a.y = b.y ∧ (a.m < b.m ∨ (a.m = b.m ∧ a.d ≤ b.d)))


/-! ## Truncating division and remainder -/

theorem tdiv_of_nonneg (a b : Int) (ha : 0 ≤ a) (hb : 0 ≤ b) : Int.tdiv a b = a / b :=
  Int.tdiv_eq_ediv ha hb

theorem tdiv_of_nonpos (a b : Int) (ha : a ≤ 0) (hb : 0 ≤ b) : Int.tdiv a b = -((-a) / b) := by
  have h : Int.tdiv (-(-a)) b = -(Int.tdiv (-a) b) := Int.neg_tdiv (-a) b
  rw [neg_neg] at h
  rw [h, Int.tdiv_eq_ediv (by omega) hb]

theorem tmod_eq_zero_iff (a b : Int) : Int.tmod a b = 0 ↔ a % b = 0 := by
  constructor
  · intro h
    exact Int.emod_eq_zero_of_dvd (Int.dvd_of_tmod_eq_zero h)
  · intro h
    exact Int.tmod_eq_zero_of_dvd (Int.dvd_of_emod_eq_zero h)

theorem is_leap_iff (y : Int) :
    is_leap y = true ↔ (y % 4 = 0 ∧ (y % 100 ≠ 0 ∨ y % 400 = 0)) := by
  unfold is_leap
  simp only [tmod_eq_zero_iff]
  split_ifs with h <;> simp only [decide_eq_true_eq] <;> omega

theorem cal_to_jd_is_leap_eq (y : Int) : cal_to_jd_is_leap y = is_leap y := rfl

theorem completed_years_days_eq (y : Int) :
    completed_years_days y = 365 * y + (y + 3) / 4 - (y + 99) / 100 + (y + 399) / 400 := by
  unfold completed_years_days
  simp only [CYCLE_YEARS, SHORT_YR, LONG_YR]
  rcases lt_trichotomy y 0 with h | h | h
  · rw [if_neg (by omega), if_neg (by omega)]
    rw [tdiv_of_nonpos y 4 (by omega) (by omega), tdiv_of_nonpos y 100 (by omega) (by omega),
      tdiv_of_nonpos y 400 (by omega) (by omega)]
    omega
  · subst h
    decide
  · rw [if_pos (by omega), if_pos (by omega)]
    rw [tdiv_of_nonneg _ 4 (by omega) (by omega), tdiv_of_nonneg _ 100 (by omega) (by omega),
      tdiv_of_nonneg _ 400 (by omega) (by omega)]
    omega

theorem year_length_eq (y : Int) :
    year_length y = if (y % 4 = 0 ∧ (y % 100 ≠ 0 ∨ y % 400 = 0)) then 366 else 365 := by
  unfold year_length
  by_cases h : is_leap y = true
  · rw [if_pos h, if_pos ((is_leap_iff y).1 h)]; rfl
  · rw [if_neg h, if_neg (fun h2 => h ((is_leap_iff y).2 h2))]; rfl

theorem completed_years_days_succ (y : Int) :
    completed_years_days (y + 1) = completed_years_days y + year_length y := by
  rw [completed_years_days_eq, completed_years_days_eq, year_length_eq]
  split_ifs with h <;> omega

theorem completed_years_days_cycle (y : Int) :
    completed_years_days (y + 400) = completed_years_days y + 146097 := by
  rw [completed_years_days_eq, completed_years_days_eq]
  omega

theorem completed_years_days_base (n : Int) :
    completed_years_days (n * 400) = n * 146097 := by
  rw [completed_years_days_eq]
  omega

theorem CYCLE_DAYS_eq : CYCLE_DAYS = 146097 := by decide


/-! ## Months -/

theorem completed_months_days_one (y : Int) : completed_months_days y 1 = 0 := by
  unfold completed_months_days
  cases cal_to_jd_is_leap y <;> decide

theorem completed_months_days_succ (y m : Int) (h1 : 1 ≤ m) (h2 : m ≤ 11) :
    completed_months_days y (m + 1) = completed_months_days y m + the_month_len y m := by
  unfold completed_months_days the_month_len
  rw [cal_to_jd_is_leap_eq]
  interval_cases m <;> cases is_leap y <;> decide

theorem completed_months_days_last (y : Int) :
    completed_months_days y 12 + the_month_len y 12 = year_length y := by
  unfold completed_months_days the_month_len year_length
  rw [cal_to_jd_is_leap_eq]
  cases is_leap y <;> decide

theorem the_month_len_pos (y m : Int) (h1 : 1 ≤ m) (h2 : m ≤ 12) : 28 ≤ the_month_len y m := by
  unfold the_month_len
  interval_cases m <;> cases is_leap y <;> decide

theorem cal_to_jd_eq (y m : Int) (d : ℚ) :
    cal_to_jd y m d
      = ((completed_years_days y : Int) : ℚ) + ((completed_months_days y m : Int) : ℚ)
        + d + JAN_0_YEAR_0 := by
  unfold cal_to_jd completed_years_days completed_months_days
  simp only
  split_ifs <;> push_cast <;> ring


/-! ## The year loop -/

theorem year_loop_spec (ysf : Int) (jmb : ℚ) (D0 : Int)
    (hcap : jmb < ((completed_years_days (ysf + 400) - D0 : Int) : ℚ)) :
    ∀ (n : Nat) (s : YearState), (400 - s.more).toNat = n → 0 ≤ s.more → s.more ≤ 400 →
      s.year = ysf + s.more →
      s.cursor = ((completed_years_days s.year - D0 : Int) : ℚ) →
      s.cursor ≤ jmb →
      (year_loop ysf jmb s).year = ysf + (year_loop ysf jmb s).more ∧
      (year_loop ysf jmb s).cursor
        = ((completed_years_days (year_loop ysf jmb s).year - D0 : Int) : ℚ) ∧
      (year_loop ysf jmb s).cursor ≤ jmb ∧
      jmb < (year_loop ysf jmb s).cursor + ((year_length (year_loop ysf jmb s).year : Int) : ℚ) ∧
      s.more ≤ (year_loop ysf jmb s).more ∧ (year_loop ysf jmb s).more < 400 := by
  intro n
  induction n with
  | zero =>
    intro s hn h0 h4 hy hc hle
    exfalso
    have h : s.more = 400 := by omega
    rw [hy, h] at hc
    rw [hc] at hle
    exact absurd hcap (not_lt.mpr hle)
  | succ k ih =>
    intro s hn h0 h4 hy hc hle
    rw [year_loop]
    have hlt : s.more < CYCLE_YEARS := by
      simp only [CYCLE_YEARS]; omega
    rw [if_pos hlt]
    simp only
    have hlen : (if is_leap (ysf + s.more) = true then LONG_YR else SHORT_YR)
        = year_length s.year := by
      rw [hy]; rfl
    rw [hlen]
    by_cases hcond : s.cursor + ((year_length s.year : Int) : ℚ) ≤ jmb
    · rw [if_pos hcond]
      have := ih { more := s.more + 1, cursor := s.cursor + ((year_length s.year : Int) : ℚ),
                   year := s.year + 1 }
        (by simp only; omega) (by simp only; omega) (by simp only; omega) (by simp only; omega)
        (by simp only; rw [completed_years_days_succ, hc]; push_cast; ring)
        hcond
      obtain ⟨a, b, c, d, e, f⟩ := this
      simp only at e
      exact ⟨a, b, c, d, by omega, f⟩
    · rw [if_neg hcond]
      exact ⟨hy, hc, hle, not_le.mp hcond, le_refl _, by omega⟩


/-! ## The month loop -/

theorem month_loop_spec (year : Int) (jmb c0 : ℚ)
    (hcap : jmb < c0 + ((year_length year : Int) : ℚ)) :
    ∀ (n : Nat) (s : MonthState), (12 - s.month).toNat = n → 1 ≤ s.month → s.month ≤ 12 →
      s.cursor = c0 + ((completed_months_days year s.month : Int) : ℚ) →
      s.cursor ≤ jmb →
      1 ≤ (month_loop year jmb s).month ∧ (month_loop year jmb s).month ≤ 12 ∧
      (month_loop year jmb s).cursor
        = c0 + ((completed_months_days year (month_loop year jmb s).month : Int) : ℚ) ∧
      (month_loop year jmb s).cursor ≤ jmb ∧
      jmb < (month_loop year jmb s).cursor
        + ((the_month_len year (month_loop year jmb s).month : Int) : ℚ) ∧
      (month_loop year jmb s).fractional_days = jmb - (month_loop year jmb s).cursor + 1 ∧
      s.month ≤ (month_loop year jmb s).month := by
  intro n
  induction n with
  | zero =>
    intro s hn h1 h12 hc hle
    have hm : s.month = 12 := by omega
    rw [month_loop, if_pos h12]
    simp only
    have hcond : ¬ s.cursor + ((the_month_len year s.month : Int) : ℚ) ≤ jmb := by
      rw [hc, hm, add_assoc, ← Int.cast_add, completed_months_days_last]
      exact not_le.mpr hcap
    rw [if_neg hcond]
    refine ⟨h1, h12, hc, hle, not_le.mp hcond, ?_, le_refl _⟩
    norm_num
  | succ k ih =>
    intro s hn h1 h12 hc hle
    have h11 : s.month ≤ 11 := by omega
    rw [month_loop, if_pos h12]
    simp only
    by_cases hcond : s.cursor + ((the_month_len year s.month : Int) : ℚ) ≤ jmb
    · rw [if_pos hcond]
      have := ih { s with month := s.month + 1,
                          cursor := s.cursor + ((the_month_len year s.month : Int) : ℚ) }
        (by simp only; omega) (by simp only; omega) (by simp only; omega)
        (by simp only; rw [completed_months_days_succ year s.month h1 h11, hc]; push_cast; ring)
        hcond
      obtain ⟨a, b, c, d, e, f, g⟩ := this
      simp only at g
      exact ⟨a, b, c, d, e, f, by omega⟩
    · rw [if_neg hcond]
      refine ⟨h1, h12, hc, hle, not_le.mp hcond, ?_, le_refl _⟩
      norm_num


/-! ## Stages of `jd_to_cal` -/

theorem jd_to_cal_eq (jd : ℚ) :
    jd_to_cal jd
      = { y := (year_state_of jd).year, m := (month_state_of jd).month,
          d := (month_state_of jd).fractional_days } := rfl

theorem jd_minus_base_nonneg (jd : ℚ) : 0 ≤ jd_minus_base_of jd := by
  unfold jd_minus_base_of num_cycles_of
  rw [CYCLE_DAYS_eq]
  have h := Int.floor_le ((jd - JAN_1_YEAR_0) / ((146097 : Int) : ℚ))
  rw [le_div_iff₀ (by norm_num)] at h
  push_cast at h ⊢
  linarith

theorem jd_minus_base_lt (jd : ℚ) : jd_minus_base_of jd < 146097 := by
  unfold jd_minus_base_of num_cycles_of
  rw [CYCLE_DAYS_eq]
  have h := Int.lt_floor_add_one ((jd - JAN_1_YEAR_0) / ((146097 : Int) : ℚ))
  rw [div_lt_iff₀ (by norm_num)] at h
  push_cast at h ⊢
  linarith

theorem bulk_skip_spec (n : Int) (jmb : ℚ) (h0 : 0 ≤ jmb) :
    (bulk_skip (n * 400) jmb).1
      = ((completed_years_days (bulk_skip (n * 400) jmb).2 - completed_years_days (n * 400) : Int) : ℚ)
    ∧ (bulk_skip (n * 400) jmb).1 ≤ jmb ∧ 0 ≤ (bulk_skip (n * 400) jmb).1 := by
  have hfl : 0 ≤ ⌊jmb⌋ := Int.floor_nonneg.mpr h0
  have hfle : ((⌊jmb⌋ : Int) : ℚ) ≤ jmb := Int.floor_le jmb
  unfold bulk_skip
  by_cases hk : more_years_of jmb > 0
  · rw [if_pos hk]
    simp only
    have hk2 : more_years_of jmb = ⌊jmb⌋ / 366 - 1 := by
      unfold more_years_of
      rw [LONG_YR, tdiv_of_nonneg _ _ hfl (by omega)]
    generalize more_years_of jmb = k at hk hk2 ⊢
    rw [tdiv_of_nonneg _ 4 (by omega) (by omega), tdiv_of_nonneg _ 100 (by omega) (by omega),
      tdiv_of_nonneg _ 400 (by omega) (by omega), SHORT_YR]
    have e1 : k * 365 + (k - 1) / 4 - (k - 1) / 100 + (k - 1) / 400 + 1
        = completed_years_days (n * 400 + k) - completed_years_days (n * 400) := by
      rw [completed_years_days_eq, completed_years_days_eq]
      omega
    have e2 : k * 365 + (k - 1) / 4 - (k - 1) / 100 + (k - 1) / 400 + 1 ≤ ⌊jmb⌋ := by
      omega
    have e3 : 0 ≤ k * 365 + (k - 1) / 4 - (k - 1) / 100 + (k - 1) / 400 + 1 := by
      omega
    refine ⟨?_, ?_, ?_⟩
    · rw [← e1]; norm_num
    · have : ((k * 365 + (k - 1) / 4 - (k - 1) / 100 + (k - 1) / 400 + 1 : Int) : ℚ)
          ≤ ((⌊jmb⌋ : Int) : ℚ) := by exact_mod_cast e2
      norm_num at this ⊢
      linarith
    · have : (0 : ℚ) ≤ ((k * 365 + (k - 1) / 4 - (k - 1) / 100 + (k - 1) / 400 + 1 : Int) : ℚ) := by
        exact_mod_cast e3
      norm_num at this ⊢
      linarith
  · rw [if_neg hk]
    simp only
    refine ⟨?_, ?_, ?_⟩ <;> norm_num
    exact h0


theorem year_state_spec (jd : ℚ) :
    (year_state_of jd).cursor
      = ((completed_years_days (year_state_of jd).year
          - completed_years_days (num_cycles_of jd * 400) : Int) : ℚ) ∧
    (year_state_of jd).cursor ≤ jd_minus_base_of jd ∧
    jd_minus_base_of jd
      < (year_state_of jd).cursor + ((year_length (year_state_of jd).year : Int) : ℚ) ∧
    (year_state_of jd).more < 400 := by
  obtain ⟨b1, b2, b3⟩ := bulk_skip_spec (num_cycles_of jd) (jd_minus_base_of jd)
    (jd_minus_base_nonneg jd)
  have hcap : jd_minus_base_of jd
      < ((completed_years_days ((bulk_skip (num_cycles_of jd * 400) (jd_minus_base_of jd)).2 + 400)
          - completed_years_days (num_cycles_of jd * 400) : Int) : ℚ) := by
    rw [completed_years_days_cycle]
    have := jd_minus_base_lt jd
    rw [b1] at b3
    push_cast at b3 ⊢
    linarith
  have h := year_loop_spec (bulk_skip (num_cycles_of jd * 400) (jd_minus_base_of jd)).2
    (jd_minus_base_of jd) (completed_years_days (num_cycles_of jd * 400)) hcap 400
    { more := 0
      cursor := (bulk_skip (num_cycles_of jd * 400) (jd_minus_base_of jd)).1
      year := (bulk_skip (num_cycles_of jd * 400) (jd_minus_base_of jd)).2 }
    (by simp) (by simp) (by simp) (by simp) b1 b2
  obtain ⟨_, h2, h3, h4, _, h6⟩ := h
  exact ⟨h2, h3, h4, h6⟩

theorem month_state_spec (jd : ℚ) :
    1 ≤ (month_state_of jd).month ∧ (month_state_of jd).month ≤ 12 ∧
    (month_state_of jd).cursor
      = (year_state_of jd).cursor
        + ((completed_months_days (year_state_of jd).year (month_state_of jd).month : Int) : ℚ) ∧
    (month_state_of jd).cursor ≤ jd_minus_base_of jd ∧
    jd_minus_base_of jd < (month_state_of jd).cursor
      + ((the_month_len (year_state_of jd).year (month_state_of jd).month : Int) : ℚ) ∧
    (month_state_of jd).fractional_days
      = jd_minus_base_of jd - (month_state_of jd).cursor + 1 := by
  obtain ⟨_, y2, y3, _⟩ := year_state_spec jd
  have h := month_loop_spec (year_state_of jd).year (jd_minus_base_of jd)
    (year_state_of jd).cursor y3 11
    { month := 1, cursor := (year_state_of jd).cursor, fractional_days := 0.0 }
    (by simp) (by simp) (by simp)
    (by simp [completed_months_days_one]) y2
  obtain ⟨h1, h2, h3, h4, h5, h6, _⟩ := h
  exact ⟨h1, h2, h3, h4, h5, h6⟩

/-- The calendar date that `jd_to_cal` returns is well formed and `cal_to_jd`
maps it back to the Julian date it came from. -/
theorem jd_to_cal_sound (jd : ℚ) :
    1 ≤ (jd_to_cal jd).m ∧ (jd_to_cal jd).m ≤ 12 ∧ 1 ≤ (jd_to_cal jd).d ∧
    (jd_to_cal jd).d < ((the_month_len (jd_to_cal jd).y (jd_to_cal jd).m : Int) : ℚ) + 1 ∧
    cal_to_jd (jd_to_cal jd).y (jd_to_cal jd).m (jd_to_cal jd).d = jd := by
  obtain ⟨y1, _, _, _⟩ := year_state_spec jd
  obtain ⟨m1, m2, m3, m4, m5, m6⟩ := month_state_spec jd
  rw [jd_to_cal_eq]
  simp only
  refine ⟨m1, m2, ?_, ?_, ?_⟩
  · rw [m6]; linarith
  · rw [m6]; linarith
  · rw [cal_to_jd_eq, m6, m3, y1, completed_years_days_base]
    unfold jd_minus_base_of
    rw [CYCLE_DAYS_eq]
    unfold JAN_0_YEAR_0 JAN_1_YEAR_0
    push_cast
    ring


/-! ## `cal_to_jd` is strictly increasing on well-formed dates -/

theorem year_length_ge (y : Int) : 365 ≤ year_length y := by
  unfold year_length
  cases is_leap y <;> decide

theorem completed_years_days_mono : Monotone completed_years_days := by
  apply monotone_int_of_le_succ
  intro y
  rw [completed_years_days_succ]
  have := year_length_ge y
  omega

theorem completed_years_days_le (y1 y2 : Int) (h : y1 < y2) :
    completed_years_days y1 + year_length y1 ≤ completed_years_days y2 := by
  rw [← completed_years_days_succ]
  exact completed_years_days_mono (by omega)

theorem completed_months_days_nonneg (y m : Int) (h1 : 1 ≤ m) (h2 : m ≤ 12) :
    0 ≤ completed_months_days y m := by
  unfold completed_months_days
  rw [cal_to_jd_is_leap_eq]
  interval_cases m <;> cases is_leap y <;> decide

theorem completed_months_days_le_year (y m : Int) (h1 : 1 ≤ m) (h2 : m ≤ 12) :
    completed_months_days y m + the_month_len y m ≤ year_length y := by
  unfold completed_months_days the_month_len year_length
  rw [cal_to_jd_is_leap_eq]
  interval_cases m <;> cases is_leap y <;> decide

theorem completed_months_days_le (y m1 m2 : Int) (h1 : 1 ≤ m1) (h : m1 < m2) (h2 : m2 ≤ 12) :
    completed_months_days y m1 + the_month_len y m1 ≤ completed_months_days y m2 := by
  have hm1 : m1 ≤ 12 := by omega
  have hm2 : 1 ≤ m2 := by omega
  unfold completed_months_days the_month_len
  rw [cal_to_jd_is_leap_eq]
  interval_cases m1 <;> interval_cases m2 <;> cases is_leap y <;> decide

/-- On well-formed dates `cal_to_jd` is strictly increasing for the
lexicographic order on (year, month, day). -/
theorem cal_to_jd_strict_lex (y1 m1 : Int) (d1 : ℚ) (y2 m2 : Int) (d2 : ℚ)
    (ha1 : 1 ≤ m1) (ha2 : m1 ≤ 12)
    (ha4 : d1 < ((the_month_len y1 m1 : Int) : ℚ) + 1)
    (hb1 : 1 ≤ m2) (hb2 : m2 ≤ 12) (hb3 : 1 ≤ d2)
    (hlt : y1 < y2 ∨ (y1 = y2 ∧ (m1 < m2 ∨ (m1 = m2 ∧ d1 < d2)))) :
    cal_to_jd y1 m1 d1 < cal_to_jd y2 m2 d2 := by
  rw [cal_to_jd_eq, cal_to_jd_eq]
  rcases hlt with h | ⟨h, h'⟩
  · have e1 : ((completed_years_days y1 + year_length y1 : Int) : ℚ)
        ≤ ((completed_years_days y2 : Int) : ℚ) := by
      exact_mod_cast completed_years_days_le y1 y2 h
    have e2 : ((completed_months_days y1 m1 + the_month_len y1 m1 : Int) : ℚ)
        ≤ ((year_length y1 : Int) : ℚ) := by
      exact_mod_cast completed_months_days_le_year y1 m1 ha1 ha2
    have e3 : (0 : ℚ) ≤ ((completed_months_days y2 m2 : Int) : ℚ) := by
      exact_mod_cast completed_months_days_nonneg y2 m2 hb1 hb2
    push_cast at e1 e2
    linarith
  · subst h
    rcases h' with h | ⟨h, h'⟩
    · have e2 : ((completed_months_days y1 m1 + the_month_len y1 m1 : Int) : ℚ)
          ≤ ((completed_months_days y1 m2 : Int) : ℚ) := by
        exact_mod_cast completed_months_days_le y1 m1 m2 ha1 h hb2
      push_cast at e2
      linarith
    · subst h
      linarith

/-- A well-formed calendar date is recovered by `jd_to_cal` from its Julian date. -/
theorem jd_to_cal_complete (y m : Int) (d : ℚ) (h1 : 1 ≤ m) (h2 : m ≤ 12) (h3 : 1 ≤ d)
    (h4 : d < ((the_month_len y m : Int) : ℚ) + 1) :
    jd_to_cal (cal_to_jd y m d) = { y := y, m := m, d := d } := by
  obtain ⟨s1, s2, s3, s4, s5⟩ := jd_to_cal_sound (cal_to_jd y m d)
  generalize jd_to_cal (cal_to_jd y m d) = r at s1 s2 s3 s4 s5
  obtain ⟨ry, rm, rd⟩ := r
  simp only at s1 s2 s3 s4 s5
  have hy : ry = y := by
    rcases lt_trichotomy ry y with h | h | h
    · exact absurd s5 (ne_of_lt (cal_to_jd_strict_lex ry rm rd y m d s1 s2 s4 h1 h2 h3 (Or.inl h)))
    · exact h
    · exact absurd s5 (ne_of_gt (cal_to_jd_strict_lex y m d ry rm rd h1 h2 h4 s1 s2 s3 (Or.inl h)))
  subst hy
  have hm : rm = m := by
    rcases lt_trichotomy rm m with h | h | h
    · exact absurd s5 (ne_of_lt (cal_to_jd_strict_lex ry rm rd ry m d s1 s2 s4 h1 h2 h3
        (Or.inr ⟨rfl, Or.inl h⟩)))
    · exact h
    · exact absurd s5 (ne_of_gt (cal_to_jd_strict_lex ry m d ry rm rd h1 h2 h4 s1 s2 s3
        (Or.inr ⟨rfl, Or.inl h⟩)))
  subst hm
  have hd : rd = d := by
    rw [cal_to_jd_eq, cal_to_jd_eq] at s5
    linarith
  subst hd
  rfl


theorem is_leap_iff_dvd (y : Int) :
    is_leap y = true ↔ (4 ∣ y ∧ (¬ 100 ∣ y ∨ 400 ∣ y)) := by
  rw [is_leap_iff]
  omega

theorem year_length_eq_dvd (y : Int) :
    year_length y = if (4 ∣ y ∧ (¬ 100 ∣ y ∨ 400 ∣ y)) then 366 else 365 := by
  unfold year_length
  by_cases h : is_leap y = true
  · rw [if_pos h, if_pos ((is_leap_iff_dvd y).1 h)]; rfl
  · rw [if_neg h, if_neg (fun h2 => h ((is_leap_iff_dvd y).2 h2))]; rfl

theorem cal_to_jd_jan0_succ (y : Int) :
    cal_to_jd (y + 1) 1 0 - cal_to_jd y 1 0 = ((year_length y : Int) : ℚ) := by
  rw [cal_to_jd_eq, cal_to_jd_eq, completed_years_days_succ, completed_months_days_one,
    completed_months_days_one]
  push_cast
  ring

theorem completed_months_days_bounds (y m : Int) :
    arrayAt DAYS_IN_PRECEDING_MONTHS (m - 1) ≤ completed_months_days y m ∧
    completed_months_days y m ≤ arrayAt DAYS_IN_PRECEDING_MONTHS (m - 1) + 1 := by
  unfold completed_months_days
  split_ifs <;> omega

/-! ## The claims -/

/-- With exact integers and rationals (no `int` overflow, no rounding): round trip calendar -> JD -> calendar. For every integer year `y`,
month `m` in 1..12 and day `d` with `1 ≤ d < the_month_len y m + 1`,
`jd_to_cal (cal_to_jd y m d)` is exactly `(y, m, d)`. -/
theorem roundtrip_cal_jd_cal (y m : Int) (d : ℚ) (hm1 : 1 ≤ m) (hm2 : m ≤ 12)
    (hd1 : 1 ≤ d) (hd2 : d < ((the_month_len y m : Int) : ℚ) + 1) :
    jd_to_cal (cal_to_jd y m d) = { y := y, m := m, d := d } :=
  jd_to_cal_complete y m d hm1 hm2 hd1 hd2

theorem roundtrip_cal_jd_cal_witness :
    (1 : Int) ≤ 2 ∧ (2 : Int) ≤ 12 ∧ (1 : ℚ) ≤ 29.75 ∧
    (29.75 : ℚ) < ((the_month_len (-400) 2 : Int) : ℚ) + 1 ∧
    jd_to_cal (cal_to_jd (-400) 2 29.75) = { y := -400, m := 2, d := 29.75 } :=
  have h1 : (1 : Int) ≤ 2 := by decide
  have h2 : (2 : Int) ≤ 12 := by decide
  have h3 : (1 : ℚ) ≤ 29.75 := by norm_num
  have h4 : (29.75 : ℚ) < ((the_month_len (-400) 2 : Int) : ℚ) + 1 := by
    have e : the_month_len (-400) 2 = 29 := by decide
    rw [e]; norm_num
  ⟨h1, h2, h3, h4, roundtrip_cal_jd_cal (-400) 2 29.75 h1 h2 h3 h4⟩

/-- With exact integers and rationals (no `int` overflow, no rounding): round trip JD -> calendar -> JD. For every Julian date `jd`, the
date `(y, m, d)` that `jd_to_cal jd` returns satisfies `cal_to_jd y m d = jd`. -/
theorem roundtrip_jd_cal_jd (jd : ℚ) :
    cal_to_jd (jd_to_cal jd).y (jd_to_cal jd).m (jd_to_cal jd).d = jd :=
  (jd_to_cal_sound jd).2.2.2.2

/-- C3: epoch anchor. `cal_to_jd (-4713) 11 24.5 = 0` and `jd_to_cal 0` is
year -4713, month 11, day 24.5. -/
theorem epoch_anchor :
    cal_to_jd (-4713) 11 24.5 = 0 ∧ jd_to_cal 0 = { y := -4713, m := 11, d := 24.5 } := by
  have h : cal_to_jd (-4713) 11 24.5 = 0 := by
    have e1 : completed_years_days (-4713) = -1721387 := by decide
    have e2 : completed_months_days (-4713) 11 = 304 := by decide
    rw [cal_to_jd_eq, e1, e2, JAN_0_YEAR_0]
    norm_num
  refine ⟨h, ?_⟩
  have e : the_month_len (-4713) 11 = 30 := by decide
  have := jd_to_cal_complete (-4713) 11 24.5 (by decide) (by decide) (by norm_num)
    (by rw [e]; norm_num)
  rw [h] at this
  exact this

/-- C4: leap-year rule. For every integer year `y`, `is_leap y` and the
inline test of `cal_to_jd`, both computed with C's truncating `%`, hold iff
`y` is divisible by 4 and (not divisible by 100 or divisible by 400). -/
theorem is_leap_rule (y : Int) :
    (is_leap y = true ↔ (4 ∣ y ∧ (¬ 100 ∣ y ∨ 400 ∣ y))) ∧
    (cal_to_jd_is_leap y = true ↔ (4 ∣ y ∧ (¬ 100 ∣ y ∨ 400 ∣ y))) :=
  ⟨is_leap_iff_dvd y, by rw [cal_to_jd_is_leap_eq]; exact is_leap_iff_dvd y⟩


/-- With exact integers and rationals (no `int` overflow, no rounding): completed-years day count against the reference obtained by counting
year lengths. January 0 of year 0 is 1721058.5; stepping one year forward adds
366 days when the year stepped over is a leap year and 365 otherwise; hence
January 0 of year `n` (of year `-n`) is 1721058.5 plus (minus) the sum of the
lengths of the years `0 .. n-1` (of the years `-1 .. -n`), as in the hand
computations for years -9 and 12. -/
theorem completed_years_reference :
    cal_to_jd 0 1 0 = 1721058.5 ∧
    (∀ y : Int, cal_to_jd (y + 1) 1 0 - cal_to_jd y 1 0
      = if (4 ∣ y ∧ (¬ 100 ∣ y ∨ 400 ∣ y)) then 366 else 365) ∧
    (∀ n : Nat, cal_to_jd (n : Int) 1 0
      = 1721058.5 + ∑ i in Finset.range n,
          (if (4 ∣ (i : Int) ∧ (¬ 100 ∣ (i : Int) ∨ 400 ∣ (i : Int))) then (366 : ℚ) else 365)) ∧
    (∀ n : Nat, cal_to_jd (-(n : Int)) 1 0
      = 1721058.5 - ∑ i in Finset.range n,
          (if (4 ∣ (-((i : Int) + 1)) ∧ (¬ 100 ∣ (-((i : Int) + 1)) ∨ 400 ∣ (-((i : Int) + 1))))
            then (366 : ℚ) else 365)) ∧
    cal_to_jd (-9) 1 0 = 1721058.5 - 2 * 366 - 7 * 365 ∧
    cal_to_jd 12 1 0 = 1721058.5 + 3 * 366 + 9 * 365 := by
  have h0 : cal_to_jd 0 1 0 = 1721058.5 := by
    have e1 : completed_years_days 0 = 0 := by decide
    rw [cal_to_jd_eq, e1, completed_months_days_one, JAN_0_YEAR_0]
    norm_num
  have hstep : ∀ y : Int, cal_to_jd (y + 1) 1 0 - cal_to_jd y 1 0
      = if (4 ∣ y ∧ (¬ 100 ∣ y ∨ 400 ∣ y)) then 366 else 365 := by
    intro y
    rw [cal_to_jd_jan0_succ, year_length_eq_dvd]
    split_ifs <;> norm_num
  refine ⟨h0, hstep, ?_, ?_, ?_, ?_⟩
  · intro n
    induction n with
    | zero => simpa using h0
    | succ k ih =>
      rw [Finset.sum_range_succ, ← add_assoc, ← ih, ← hstep (k : Int)]
      push_cast
      ring
  · intro n
    induction n with
    | zero => simpa using h0
    | succ k ih =>
      have hs := hstep (-((k : Int) + 1))
      have e : -((k : Int) + 1) + 1 = -(k : Int) := by ring
      rw [e] at hs
      rw [Finset.sum_range_succ, ← sub_sub, ← ih, ← hs]
      push_cast
      ring
  · have e1 : completed_years_days (-9) = -(2 * 366 + 7 * 365) := by decide
    rw [cal_to_jd_eq, e1, completed_months_days_one, JAN_0_YEAR_0]
    norm_num
  · have e1 : completed_years_days 12 = 3 * 366 + 9 * 365 := by decide
    rw [cal_to_jd_eq, e1, completed_months_days_one, JAN_0_YEAR_0]
    norm_num

/-- C6: month lengths. For every integer year `y` and month `m` in 1..12,
`the_month_len y m` is 29 when `m = 2` and `y` is a leap year, and otherwise
the `m`-th entry of 31, 28, 31, 30, 31, 30, 31, 31, 30, 31, 30, 31. -/
theorem the_month_len_rule (y m : Int) (hm1 : 1 ≤ m) (hm2 : m ≤ 12) :
    if (m = 2 ∧ (4 ∣ y ∧ (¬ 100 ∣ y ∨ 400 ∣ y))) then the_month_len y m = 29
    else ([31, 28, 31, 30, 31, 30, 31, 31, 30, 31, 30, 31] : List Int)[(m - 1).toNat]?
      = some (the_month_len y m) := by
  have key : (4 ∣ y ∧ (¬ 100 ∣ y ∨ 400 ∣ y)) ↔ is_leap y = true := (is_leap_iff_dvd y).symm
  simp only [key]
  unfold the_month_len
  interval_cases m <;> cases is_leap y <;> decide

theorem the_month_len_rule_witness :
    (1 : Int) ≤ 2 ∧ (2 : Int) ≤ 12 ∧
    (if ((2 : Int) = 2 ∧ (4 ∣ (-2000 : Int) ∧ (¬ 100 ∣ (-2000 : Int) ∨ 400 ∣ (-2000 : Int))))
      then the_month_len (-2000) 2 = 29
      else ([31, 28, 31, 30, 31, 30, 31, 31, 30, 31, 30, 31] : List Int)[((2 : Int) - 1).toNat]?
        = some (the_month_len (-2000) 2)) :=
  ⟨by decide, by decide, the_month_len_rule (-2000) 2 (by decide) (by decide)⟩

/-- With exact integers and rationals (no `int` overflow, no rounding): monotonic in year. For a fixed month `m` in 1..12 and a fixed day `d`,
`cal_to_jd y m d` is strictly increasing in the integer year `y`. -/
theorem cal_to_jd_year_strict_mono (m : Int) (d : ℚ) (hm1 : 1 ≤ m) (hm2 : m ≤ 12)
    (y1 y2 : Int) (h : y1 < y2) : cal_to_jd y1 m d < cal_to_jd y2 m d := by
  -- the bounds on `m` keep the table read inside the array; the table entry is
  -- the same for both years, so the comparison does not depend on its value
  have _hm := And.intro hm1 hm2
  rw [cal_to_jd_eq, cal_to_jd_eq]
  have e1 := completed_years_days_le y1 y2 h
  have e2 := year_length_ge y1
  have e3 := (completed_months_days_bounds y1 m).2
  have e4 := (completed_months_days_bounds y2 m).1
  have e5 : completed_years_days y1 + completed_months_days y1 m
      < completed_years_days y2 + completed_months_days y2 m := by omega
  have e6 : ((completed_years_days y1 + completed_months_days y1 m : Int) : ℚ)
      < ((completed_years_days y2 + completed_months_days y2 m : Int) : ℚ) := by
    exact_mod_cast e5
  push_cast at e6
  linarith

theorem cal_to_jd_year_strict_mono_witness :
    (1 : Int) ≤ 3 ∧ (3 : Int) ≤ 12 ∧ (-1 : Int) < 0 ∧
    cal_to_jd (-1) 3 1.5 < cal_to_jd 0 3 1.5 :=
  ⟨by decide, by decide, by decide,
    cal_to_jd_year_strict_mono 3 1.5 (by decide) (by decide) (-1) 0 (by decide)⟩

/-- With exact integers and rationals (no `int` overflow, no rounding): monotonic in JD. For all Julian dates `jd1 ≤ jd2`, the calendar date
`jd_to_cal jd1` is not later than `jd_to_cal jd2` in the lexicographic order on
(year, month, day). -/
theorem jd_to_cal_monotone (jd1 jd2 : ℚ) (h : jd1 ≤ jd2) :
    (jd_to_cal jd1).notLater (jd_to_cal jd2) := by
  obtain ⟨a1, a2, a3, a4, a5⟩ := jd_to_cal_sound jd1
  obtain ⟨b1, b2, b3, b4, b5⟩ := jd_to_cal_sound jd2
  unfold CalDate.notLater
  by_contra hc
  have hlex : (jd_to_cal jd2).y < (jd_to_cal jd1).y ∨
      ((jd_to_cal jd2).y = (jd_to_cal jd1).y ∧ ((jd_to_cal jd2).m < (jd_to_cal jd1).m ∨
        ((jd_to_cal jd2).m = (jd_to_cal jd1).m ∧ (jd_to_cal jd2).d < (jd_to_cal jd1).d))) := by
    rcases lt_trichotomy (jd_to_cal jd2).y (jd_to_cal jd1).y with hy | hy | hy
    · exact Or.inl hy
    · right
      refine ⟨hy, ?_⟩
      rcases lt_trichotomy (jd_to_cal jd2).m (jd_to_cal jd1).m with hm | hm | hm
      · exact Or.inl hm
      · right
        refine ⟨hm, ?_⟩
        by_contra hd
        exact hc (Or.inr ⟨hy.symm, Or.inr ⟨hm.symm, not_lt.mp hd⟩⟩)
      · exact absurd (Or.inr ⟨hy.symm, Or.inl hm⟩) hc
    · exact absurd (Or.inl hy) hc
  have hlt := cal_to_jd_strict_lex _ _ _ _ _ _ b1 b2 b4 a1 a2 a3 hlex
  rw [a5, b5] at hlt
  exact absurd h (not_le.mpr hlt)

theorem jd_to_cal_monotone_witness :
    (0 : ℚ) ≤ 1 ∧ (jd_to_cal 0).notLater (jd_to_cal 1) :=
  ⟨by norm_num, jd_to_cal_monotone 0 1 (by norm_num)⟩

/-- C9: century and leap-century boundary. For every integer year `y`, March 1
is 60 days after January 1 when `y` is a leap year and 59 days otherwise; and
`cal_to_jd 1900 1 1 = 2415020.5`, `cal_to_jd 1900 3 1 = 2415020.5 + 59`,
`cal_to_jd 1600 3 1 = 2305447.5 + 60`. -/
theorem century_boundary :
    (∀ y : Int, cal_to_jd y 3 1 - cal_to_jd y 1 1
      = if (4 ∣ y ∧ (¬ 100 ∣ y ∨ 400 ∣ y)) then 60 else 59) ∧
    cal_to_jd 1900 1 1 = 2415020.5 ∧
    cal_to_jd 1900 3 1 = 2415020.5 + 59 ∧
    cal_to_jd 1600 3 1 = 2305447.5 + 60 := by
  refine ⟨?_, ?_, ?_, ?_⟩
  · intro y
    rw [cal_to_jd_eq, cal_to_jd_eq, completed_months_days_one]
    unfold completed_months_days
    rw [cal_to_jd_is_leap_eq]
    by_cases hl : is_leap y = true
    · rw [if_pos ((is_leap_iff_dvd y).1 hl), hl]
      have e : arrayAt DAYS_IN_PRECEDING_MONTHS (3 - 1) = 59 := by decide
      rw [e]
      norm_num
    · rw [if_neg (fun h2 => hl ((is_leap_iff_dvd y).2 h2))]
      rw [Bool.not_eq_true] at hl
      rw [hl]
      have e : arrayAt DAYS_IN_PRECEDING_MONTHS (3 - 1) = 59 := by decide
      rw [e]
      norm_num
  · have e1 : completed_years_days 1900 = 693961 := by decide
    rw [cal_to_jd_eq, e1, completed_months_days_one, JAN_0_YEAR_0]
    norm_num
  · have e1 : completed_years_days 1900 = 693961 := by decide
    have e2 : completed_months_days 1900 3 = 59 := by decide
    rw [cal_to_jd_eq, e1, e2, JAN_0_YEAR_0]
    norm_num
  · have e1 : completed_years_days 1600 = 584388 := by decide
    have e2 : completed_months_days 1600 3 = 60 := by decide
    rw [cal_to_jd_eq, e1, e2, JAN_0_YEAR_0]
    norm_num

/-- With exact integers and rationals (no `int` overflow, no rounding): well-formed output. For every Julian date `jd`, `jd_to_cal jd` returns
a month in 1..12 and a day `d` with `1 ≤ d < the_month_len year month + 1`; the
month loop is left through its `break`, never in the fall-through state
month = 13, day = 0. -/
theorem jd_to_cal_well_formed (jd : ℚ) :
    1 ≤ (jd_to_cal jd).m ∧ (jd_to_cal jd).m ≤ 12 ∧ 1 ≤ (jd_to_cal jd).d ∧
    (jd_to_cal jd).d < ((the_month_len (jd_to_cal jd).y (jd_to_cal jd).m : Int) : ℚ) + 1 ∧
    ¬ ((jd_to_cal jd).m = 13 ∧ (jd_to_cal jd).d = 0) := by
  obtain ⟨a1, a2, a3, a4, _⟩ := jd_to_cal_sound jd
  refine ⟨a1, a2, a3, a4, ?_⟩
  rintro ⟨h13, _⟩
  omega


/-! ## Further facts on the stages of `jd_to_cal` -/

theorem jd_minus_base_eq (jd : ℚ) : jd_minus_base_of jd = jd - base_jd_of jd := rfl

theorem is_leap_add_cycle (y : Int) : is_leap (y + 400) = is_leap y := by
  have h : (is_leap (y + 400) = true ↔ is_leap y = true) := by
    rw [is_leap_iff, is_leap_iff]
    omega
  cases h1 : is_leap (y + 400) <;> cases h2 : is_leap y <;> simp_all

theorem jd_to_cal_day_eq (jd : ℚ) :
    (jd_to_cal jd).d
      = jd + 1 / 2
        + (((1 - 1721060 - num_cycles_of jd * 146097
            - (completed_years_days (year_state_of jd).year
                - completed_years_days (num_cycles_of jd * 400))
            - completed_months_days (year_state_of jd).year (month_state_of jd).month : Int)) : ℚ) := by
  obtain ⟨y1, _, _, _⟩ := year_state_spec jd
  obtain ⟨_, _, m3, _, _, m6⟩ := month_state_spec jd
  rw [jd_to_cal_eq]
  simp only
  rw [m6, m3, y1]
  unfold jd_minus_base_of
  rw [CYCLE_DAYS_eq]
  unfold JAN_1_YEAR_0
  push_cast
  ring

/-- With exact integers and rationals (no `int` overflow, no rounding): noon convention. For every Julian date `jd` the day of month returned
by `jd_to_cal jd` has the same fractional part as `jd + 1/2`; hence an integer
`jd` maps to a day with fraction exactly 1/2, and the returned day is a whole
number exactly when `jd` is an integer plus 1/2. -/
theorem noon_convention :
    (∀ jd : ℚ, Int.fract (jd_to_cal jd).d = Int.fract (jd + 1 / 2)) ∧
    (∀ n : Int, Int.fract (jd_to_cal (n : ℚ)).d = 1 / 2) ∧
    (∀ jd : ℚ, Int.fract (jd_to_cal jd).d = 0 ↔ ∃ n : Int, jd = (n : ℚ) + 1 / 2) := by
  have key : ∀ jd : ℚ, Int.fract (jd_to_cal jd).d = Int.fract (jd + 1 / 2) := by
    intro jd
    rw [jd_to_cal_day_eq, Int.fract_add_int]
  refine ⟨key, ?_, ?_⟩
  · intro n
    rw [key, add_comm, Int.fract_add_int]
    rw [Int.fract_eq_iff]
    refine ⟨by norm_num, by norm_num, 0, by norm_num⟩
  · intro jd
    rw [key, Int.fract_eq_iff]
    constructor
    · rintro ⟨_, _, z, hz⟩
      refine ⟨z - 1, ?_⟩
      push_cast
      linarith
    · rintro ⟨n, hn⟩
      refine ⟨le_refl _, by norm_num, n + 1, ?_⟩
      rw [hn]
      push_cast
      ring

/-- With exact integers and rationals (no `int` overflow, no rounding): 400-year cycle. `CYCLE_DAYS` evaluates to 146097, and for every
integer year `y`, month `m` in 1..12 and day `d`,
`cal_to_jd (y + 400) m d = cal_to_jd y m d + 146097`. -/
theorem cycle_shift (y m : Int) (d : ℚ) (hm1 : 1 ≤ m) (hm2 : m ≤ 12) :
    CYCLE_DAYS = 146097 ∧ cal_to_jd (y + 400) m d = cal_to_jd y m d + 146097 := by
  -- the bounds on `m` keep the table read inside the array
  have _hm := And.intro hm1 hm2
  refine ⟨CYCLE_DAYS_eq, ?_⟩
  rw [cal_to_jd_eq, cal_to_jd_eq, completed_years_days_cycle]
  have e : completed_months_days (y + 400) m = completed_months_days y m := by
    unfold completed_months_days
    rw [cal_to_jd_is_leap_eq, cal_to_jd_is_leap_eq, is_leap_add_cycle]
  rw [e]
  push_cast
  ring

theorem cycle_shift_witness :
    (1 : Int) ≤ 3 ∧ (3 : Int) ≤ 12 ∧
    (CYCLE_DAYS = 146097 ∧ cal_to_jd (-1 + 400) 3 1.5 = cal_to_jd (-1) 3 1.5 + 146097) :=
  ⟨by decide, by decide, cycle_shift (-1) 3 1.5 (by decide) (by decide)⟩


theorem fdiv_eq_ediv_pos (a b : Int) (hb : 0 ≤ b) : Int.fdiv a b = a / b :=
  Int.fdiv_eq_ediv a hb

theorem completed_years_days_num_366yrs (y : Int) :
    completed_years_days y = (y - num_366yrs_of y) * SHORT_YR + num_366yrs_of y * LONG_YR := rfl

/-- C13, as stated, fails: for year 0 (`yp = -1`) the truncating divisions of
`cal_to_jd` give `num_366yrs = 0`, the floor-division formula gives `-1`. -/
theorem long_year_count_floor_fails :
    num_366yrs_of 0 = 0 ∧ spec_long_year_count 0 = -1 ∧
    ¬ (∀ year : Int, num_366yrs_of year = spec_long_year_count year) := by
  refine ⟨by decide, by decide, ?_⟩
  intro h
  exact absurd (h 0) (by decide)

/-- C13, amended: for every year `> 0` the `num_366yrs` of `cal_to_jd` equals
`floor(yp/4) - floor(yp/100) + floor(yp/400) + 1` with `yp = year - 1`; for
every year `≤ 0` it equals the same expression with each quotient rounded
toward zero, `-floor(-yp/4) + floor(-yp/100) - floor(-yp/400)`, with `yp = -1`
for year 0 and `yp = year` below; and it is the count `cal_to_jd` uses. -/
theorem long_year_count_formula (year : Int) :
    num_366yrs_of year
      = (if year > 0 then spec_long_year_count year
         else -(Int.fdiv (-(if year ≥ 0 then year - 1 else year)) 4)
              + Int.fdiv (-(if year ≥ 0 then year - 1 else year)) 100
              - Int.fdiv (-(if year ≥ 0 then year - 1 else year)) 400) ∧
    cal_to_jd year 1 0
      = (((year - num_366yrs_of year) * 365 + num_366yrs_of year * 366 : Int) : ℚ)
        + JAN_0_YEAR_0 := by
  constructor
  · unfold num_366yrs_of spec_long_year_count
    simp only [CYCLE_YEARS, fdiv_eq_ediv_pos _ 4 (by decide), fdiv_eq_ediv_pos _ 100 (by decide),
      fdiv_eq_ediv_pos _ 400 (by decide)]
    rcases lt_trichotomy year 0 with h | h | h
    · rw [if_neg (by omega), if_neg (by omega), if_neg (by omega)]
      rw [tdiv_of_nonpos year 4 (by omega) (by omega), tdiv_of_nonpos year 100 (by omega) (by omega),
        tdiv_of_nonpos year 400 (by omega) (by omega)]
      omega
    · subst h
      decide
    · rw [if_pos (by omega), if_pos (by omega), if_pos (by omega), if_pos (by omega)]
      rw [tdiv_of_nonneg _ 4 (by omega) (by omega), tdiv_of_nonneg _ 100 (by omega) (by omega),
        tdiv_of_nonneg _ 400 (by omega) (by omega)]
  · rw [cal_to_jd_eq, completed_months_days_one, completed_years_days_num_366yrs, SHORT_YR, LONG_YR]
    push_cast
    ring

/-- C14 at the failing input: for year 6000000 the exact day count is
2191455000, above the largest 32-bit `int` 2147483647, and the 32-bit
computation of `cal_to_jd` yields -2103512296. -/
theorem int32_day_count_overflows :
    completed_years_days 6000000 = 2191455000 ∧
    completed_years_days32 6000000 = -2103512296 ∧
    cal_to_jd 6000000 1 1 = 2191455000 + 1 + JAN_0_YEAR_0 := by
  have e1 : completed_years_days 6000000 = 2191455000 := by decide
  refine ⟨e1, by decide, ?_⟩
  rw [cal_to_jd_eq, e1, completed_months_days_one]
  norm_num

/-- With exact integers and rationals (no `int` overflow, no rounding): cycle base. With `num_cycles = floor((jd - 1721059.5)/146097)` and
`base_jd = 1721059.5 + num_cycles*146097`, the offset `jd - base_jd` lies in
`[0, 146097)`, and `base_jd` is `cal_to_jd (400*num_cycles) 1 1.0`, the latest
January 1.0 of a year divisible by 400 at or before `jd`. -/
theorem cycle_base (jd : ℚ) :
    num_cycles_of jd = ⌊(jd - 1721059.5) / 146097⌋ ∧
    base_jd_of jd = 1721059.5 + (num_cycles_of jd : ℚ) * 146097 ∧
    jd_minus_base_of jd = jd - base_jd_of jd ∧
    0 ≤ jd_minus_base_of jd ∧ jd_minus_base_of jd < 146097 ∧
    base_jd_of jd = cal_to_jd (400 * num_cycles_of jd) 1 1.0 ∧
    cal_to_jd (400 * num_cycles_of jd) 1 1.0 ≤ jd ∧
    jd < cal_to_jd (400 * (num_cycles_of jd + 1)) 1 1.0 := by
  have hb : base_jd_of jd = 1721059.5 + (num_cycles_of jd : ℚ) * 146097 := by
    unfold base_jd_of
    rw [CYCLE_DAYS_eq, JAN_1_YEAR_0]
    push_cast
    norm_num
  have hc : ∀ n : Int, cal_to_jd (400 * n) 1 1.0 = 1721059.5 + (n : ℚ) * 146097 := by
    intro n
    rw [cal_to_jd_eq, completed_months_days_one, mul_comm, completed_years_days_base,
      JAN_0_YEAR_0]
    push_cast
    norm_num
    ring
  have h0 := jd_minus_base_nonneg jd
  have h1 := jd_minus_base_lt jd
  refine ⟨?_, hb, rfl, h0, h1, ?_, ?_, ?_⟩
  · unfold num_cycles_of
    rw [CYCLE_DAYS_eq, JAN_1_YEAR_0]
    norm_num
  · rw [hb, hc]
  · rw [hc, ← hb]
    rw [jd_minus_base_eq] at h0
    linarith
  · rw [hc]
    rw [jd_minus_base_eq, hb] at h1
    push_cast
    linarith

/-- With exact integers and rationals (no `int` overflow, no rounding): the month tables of the two directions agree. For every integer year
`y` and month `m` in 1..11, the first of month `m + 1` is `the_month_len y m`
days after the first of month `m`, and January 1 of year `y + 1` is 31 days
after December 1 of year `y`; hence a day past the end of a month is the same
instant as the matching day of the next month. -/
theorem month_tables_agree (y m : Int) (hm1 : 1 ≤ m) (hm2 : m ≤ 11) :
    cal_to_jd y (m + 1) 1 - cal_to_jd y m 1 = ((the_month_len y m : Int) : ℚ) ∧
    cal_to_jd (y + 1) 1 1 - cal_to_jd y 12 1 = 31 ∧
    (∀ d : ℚ, cal_to_jd y m (((the_month_len y m : Int) : ℚ) + d) = cal_to_jd y (m + 1) d) ∧
    (∀ d : ℚ, cal_to_jd y 12 (31 + d) = cal_to_jd (y + 1) 1 d) ∧
    cal_to_jd y 4 31 = cal_to_jd y 5 1 ∧
    cal_to_jd 100 1 1.5 = cal_to_jd 99 12 31.5 + 1 := by
  have hlast : ∀ d1 d2 : ℚ, cal_to_jd (y + 1) 1 d1 - cal_to_jd y 12 d2 = 31 + d1 - d2 := by
    intro d1 d2
    have e := completed_months_days_last y
    have e12 : the_month_len y 12 = 31 := by
      unfold the_month_len
      cases is_leap y <;> decide
    rw [e12] at e
    have e' : ((completed_months_days y 12 + 31 : Int) : ℚ) = ((year_length y : Int) : ℚ) := by
      rw [e]
    rw [cal_to_jd_eq, cal_to_jd_eq, completed_years_days_succ, completed_months_days_one]
    push_cast at e' ⊢
    linarith
  have hstep : ∀ (k : Int) (d1 d2 : ℚ), 1 ≤ k → k ≤ 11 →
      cal_to_jd y (k + 1) d1 - cal_to_jd y k d2 = ((the_month_len y k : Int) : ℚ) + d1 - d2 := by
    intro k d1 d2 hk1 hk2
    rw [cal_to_jd_eq, cal_to_jd_eq, completed_months_days_succ y k hk1 hk2]
    push_cast
    ring
  refine ⟨?_, ?_, ?_, ?_, ?_, ?_⟩
  · rw [hstep m 1 1 hm1 hm2]; ring
  · rw [hlast]; ring
  · intro d
    have := hstep m d (((the_month_len y m : Int) : ℚ) + d) hm1 hm2
    linarith
  · intro d
    have := hlast d (31 + d)
    linarith
  · have := hstep 4 1 31 (by decide) (by decide)
    have e4 : the_month_len y 4 = 30 := by
      unfold the_month_len
      cases is_leap y <;> decide
    rw [e4] at this
    norm_num at this
    linarith
  · have e1 : completed_years_days 100 = completed_years_days 99 + 365 := by decide
    have e2 : completed_months_days 99 12 = 334 := by decide
    rw [cal_to_jd_eq, cal_to_jd_eq, completed_months_days_one, e1, e2]
    push_cast
    norm_num
    ring

theorem month_tables_agree_witness :
    (1 : Int) ≤ 2 ∧ (2 : Int) ≤ 11 ∧
    (cal_to_jd 2024 (2 + 1) 1 - cal_to_jd 2024 2 1 = ((the_month_len 2024 2 : Int) : ℚ) ∧
    cal_to_jd (2024 + 1) 1 1 - cal_to_jd 2024 12 1 = 31 ∧
    (∀ d : ℚ, cal_to_jd 2024 2 (((the_month_len 2024 2 : Int) : ℚ) + d)
      = cal_to_jd 2024 (2 + 1) d) ∧
    (∀ d : ℚ, cal_to_jd 2024 12 (31 + d) = cal_to_jd (2024 + 1) 1 d) ∧
    cal_to_jd 2024 4 31 = cal_to_jd 2024 5 1 ∧
    cal_to_jd 100 1 1.5 = cal_to_jd 99 12 31.5 + 1) :=
  ⟨by decide, by decide, month_tables_agree 2024 2 (by decide) (by decide)⟩


/-! ## The bulk skip and the year loop, in whole days -/

theorem more_years_of_eq (jmb : ℚ) (h0 : 0 ≤ jmb) : more_years_of jmb = ⌊jmb⌋ / 366 - 1 := by
  unfold more_years_of
  rw [LONG_YR, tdiv_of_nonneg _ _ (Int.floor_nonneg.mpr h0) (by omega)]

theorem more_days_of_eq (n : Int) (jmb : ℚ) (hk : more_years_of jmb > 0) :
    more_days_of jmb
      = completed_years_days (n * 400 + more_years_of jmb) - completed_years_days (n * 400) := by
  unfold more_days_of
  simp only
  generalize more_years_of jmb = k at hk ⊢
  rw [tdiv_of_nonneg _ 4 (by omega) (by omega), tdiv_of_nonneg _ 100 (by omega) (by omega),
    tdiv_of_nonneg _ 400 (by omega) (by omega), SHORT_YR]
  rw [completed_years_days_eq, completed_years_days_eq]
  omega

theorem bulk_skip_eq (year : Int) (jmb : ℚ) :
    bulk_skip year jmb
      = (if more_years_of jmb > 0 then (((more_days_of jmb : Int) : ℚ),
          year + more_years_of jmb) else (0, year)) := by
  unfold bulk_skip more_days_of
  split_ifs <;> norm_num

theorem bulk_skip_snd (year : Int) (jmb : ℚ) :
    (bulk_skip year jmb).2 = year + max (more_years_of jmb) 0 := by
  rw [bulk_skip_eq]
  split_ifs with h
  · rw [max_eq_left (by omega)]
  · rw [max_eq_right (by omega), add_zero]

theorem sum_year_length (y0 : Int) (n : Nat) :
    ∑ i in Finset.range n, year_length (y0 + (i : Int))
      = completed_years_days (y0 + (n : Int)) - completed_years_days y0 := by
  induction n with
  | zero => simp
  | succ k ih =>
    rw [Finset.sum_range_succ, ih]
    have e : y0 + ((k + 1 : Nat) : Int) = (y0 + (k : Int)) + 1 := by push_cast; ring
    rw [e, completed_years_days_succ]
    ring

theorem year_state_year (jd : ℚ) :
    (year_state_of jd).year
      = num_cycles_of jd * 400 + max (more_years_of (jd_minus_base_of jd)) 0
        + (year_state_of jd).more ∧
    0 ≤ (year_state_of jd).more := by
  obtain ⟨b1, b2, b3⟩ := bulk_skip_spec (num_cycles_of jd) (jd_minus_base_of jd)
    (jd_minus_base_nonneg jd)
  have hcap : jd_minus_base_of jd
      < ((completed_years_days ((bulk_skip (num_cycles_of jd * 400) (jd_minus_base_of jd)).2 + 400)
          - completed_years_days (num_cycles_of jd * 400) : Int) : ℚ) := by
    rw [completed_years_days_cycle]
    have := jd_minus_base_lt jd
    rw [b1] at b3
    push_cast at b3 ⊢
    linarith
  have h := year_loop_spec (bulk_skip (num_cycles_of jd * 400) (jd_minus_base_of jd)).2
    (jd_minus_base_of jd) (completed_years_days (num_cycles_of jd * 400)) hcap 400
    { more := 0
      cursor := (bulk_skip (num_cycles_of jd * 400) (jd_minus_base_of jd)).1
      year := (bulk_skip (num_cycles_of jd * 400) (jd_minus_base_of jd)).2 }
    (by simp) (by simp) (by simp) (by simp) b1 b2
  obtain ⟨h1, _, _, _, h5, _⟩ := h
  have e1 : (year_state_of jd).year
      = (bulk_skip (num_cycles_of jd * 400) (jd_minus_base_of jd)).2 + (year_state_of jd).more := h1
  have e5 : 0 ≤ (year_state_of jd).more := h5
  rw [bulk_skip_snd] at e1
  exact ⟨e1, e5⟩

/-- Whole-day form of the state after the year loop: with `a = ⌊jd_minus_base⌋`
the completed years take at most `a` days. -/
theorem year_state_days_le (jd : ℚ) :
    completed_years_days (year_state_of jd).year - num_cycles_of jd * 146097
      ≤ ⌊jd_minus_base_of jd⌋ := by
  obtain ⟨y1, y2, _, _⟩ := year_state_spec jd
  rw [y1, completed_years_days_base] at y2
  exact Int.le_floor.mpr y2

theorem floor_jd_minus_base_bounds (jd : ℚ) :
    0 ≤ ⌊jd_minus_base_of jd⌋ ∧ ⌊jd_minus_base_of jd⌋ < 146097 := by
  constructor
  · exact Int.floor_nonneg.mpr (jd_minus_base_nonneg jd)
  · have h := jd_minus_base_lt jd
    have h2 : ((⌊jd_minus_base_of jd⌋ : Int) : ℚ) < ((146097 : Int) : ℚ) := by
      push_cast
      exact lt_of_le_of_lt (Int.floor_le _) h
    exact_mod_cast h2

theorem year_state_more_le (jd : ℚ) : (year_state_of jd).more ≤ 2 := by
  obtain ⟨e1, e2⟩ := year_state_year jd
  have e3 := year_state_days_le jd
  obtain ⟨a0, a1⟩ := floor_jd_minus_base_bounds jd
  have e4 := more_years_of_eq (jd_minus_base_of jd) (jd_minus_base_nonneg jd)
  rw [completed_years_days_eq] at e3
  generalize (year_state_of jd).year = Y at e1 e3
  generalize (year_state_of jd).more = r at e1 e2 ⊢
  generalize more_years_of (jd_minus_base_of jd) = k at e1 e4
  generalize ⌊jd_minus_base_of jd⌋ = a at e3 a0 a1 e4
  generalize num_cycles_of jd = n at e1 e3
  rcases le_total k 0 with hk | hk
  · rw [max_eq_right hk] at e1
    omega
  · rw [max_eq_left hk] at e1
    omega


theorem month_state_month_le (jd : ℚ) (h2 : (year_state_of jd).more = 2) :
    (month_state_of jd).month ≤ 11 := by
  obtain ⟨e1, _⟩ := year_state_year jd
  obtain ⟨y1, _, _, _⟩ := year_state_spec jd
  obtain ⟨_, m2, m3, m4, _, _⟩ := month_state_spec jd
  obtain ⟨a0, a1⟩ := floor_jd_minus_base_bounds jd
  have e4 := more_years_of_eq (jd_minus_base_of jd) (jd_minus_base_nonneg jd)
  by_contra hne
  have h12 : (month_state_of jd).month = 12 := by omega
  rw [m3, y1, completed_years_days_base, h12, ← Int.cast_add] at m4
  have e3 : completed_years_days (year_state_of jd).year - num_cycles_of jd * 146097
      + completed_months_days (year_state_of jd).year 12 ≤ ⌊jd_minus_base_of jd⌋ :=
    Int.le_floor.mpr m4
  have e5 := (completed_months_days_bounds (year_state_of jd).year 12).1
  have e6 : arrayAt DAYS_IN_PRECEDING_MONTHS (12 - 1) = 334 := by decide
  rw [e6] at e5
  rw [completed_years_days_eq, h2] at *
  generalize completed_months_days (year_state_of jd).year 12 = c at e3 e5
  generalize (year_state_of jd).year = Y at e1 e3
  generalize more_years_of (jd_minus_base_of jd) = k at e1 e4
  generalize ⌊jd_minus_base_of jd⌋ = a at e3 a0 a1 e4
  generalize num_cycles_of jd = n at e1 e3
  rcases le_total k 0 with hk | hk
  · rw [max_eq_right hk] at e1
    omega
  · rw [max_eq_left hk] at e1
    omega

theorem year_loop_passes_le (ysf : Int) (jmb : ℚ) :
    ∀ (n : Nat) (s : YearState), (400 - s.more).toNat = n → s.more ≤ 400 →
      ((year_loop_passes ysf jmb s : Nat) : Int) ≤ (year_loop ysf jmb s).more - s.more + 1 := by
  intro n
  induction n with
  | zero =>
    intro s hn h4
    have hge : ¬ s.more < CYCLE_YEARS := by
      simp only [CYCLE_YEARS]; omega
    rw [year_loop_passes, year_loop, if_neg hge, if_neg hge]
    simp
  | succ k ih =>
    intro s hn h4
    have hlt : s.more < CYCLE_YEARS := by
      simp only [CYCLE_YEARS]; omega
    rw [year_loop_passes, year_loop, if_pos hlt, if_pos hlt]
    simp only
    have hlen : (if is_leap (ysf + s.more) = true then LONG_YR else SHORT_YR)
        = year_length (ysf + s.more) := rfl
    rw [hlen]
    by_cases hcond : s.cursor + ((year_length (ysf + s.more) : Int) : ℚ) ≤ jmb
    · rw [if_pos hcond, if_pos hcond]
      have := ih { more := s.more + 1,
                   cursor := s.cursor + ((year_length (ysf + s.more) : Int) : ℚ),
                   year := s.year + 1 }
        (by simp only; omega) (by simp only; omega)
      simp only at this
      push_cast
      omega
    · rw [if_neg hcond, if_neg hcond]
      simp

theorem month_loop_passes_le (year : Int) (jmb : ℚ) :
    ∀ (n : Nat) (s : MonthState), (13 - s.month).toNat = n → s.month ≤ 13 →
      ((month_loop_passes year jmb s : Nat) : Int)
        ≤ (month_loop year jmb s).month - s.month + 1 := by
  intro n
  induction n with
  | zero =>
    intro s hn h4
    have hge : ¬ s.month ≤ 12 := by omega
    rw [month_loop_passes, month_loop, if_neg hge, if_neg hge]
    simp
  | succ k ih =>
    intro s hn h4
    have hlt : s.month ≤ 12 := by omega
    rw [month_loop_passes, month_loop, if_pos hlt, if_pos hlt]
    simp only
    by_cases hcond : s.cursor + ((the_month_len year s.month : Int) : ℚ) ≤ jmb
    · rw [if_pos hcond, if_pos hcond]
      have := ih { s with month := s.month + 1,
                          cursor := s.cursor + ((the_month_len year s.month : Int) : ℚ) }
        (by simp only; omega) (by simp only; omega)
      simp only at this
      push_cast
      omega
    · rw [if_neg hcond, if_neg hcond]
      simp

theorem jd_to_cal_passes_le (jd : ℚ) :
    ((jd_to_cal_passes jd : Nat) : Int)
      ≤ ((year_state_of jd).more + 1) + (month_state_of jd).month := by
  have hy := year_loop_passes_le
    (bulk_skip (num_cycles_of jd * CYCLE_YEARS) (jd_minus_base_of jd)).2 (jd_minus_base_of jd) 400
    { more := 0
      cursor := (bulk_skip (num_cycles_of jd * CYCLE_YEARS) (jd_minus_base_of jd)).1
      year := (bulk_skip (num_cycles_of jd * CYCLE_YEARS) (jd_minus_base_of jd)).2 }
    (by simp) (by simp)
  have hm := month_loop_passes_le (year_state_of jd).year (jd_minus_base_of jd) 12
    { month := 1, cursor := (year_state_of jd).cursor, fractional_days := 0.0 }
    (by simp) (by simp)
  have ey : year_loop (bulk_skip (num_cycles_of jd * CYCLE_YEARS) (jd_minus_base_of jd)).2
      (jd_minus_base_of jd)
      { more := 0
        cursor := (bulk_skip (num_cycles_of jd * CYCLE_YEARS) (jd_minus_base_of jd)).1
        year := (bulk_skip (num_cycles_of jd * CYCLE_YEARS) (jd_minus_base_of jd)).2 }
      = year_state_of jd := rfl
  have em : month_loop (year_state_of jd).year (jd_minus_base_of jd)
      { month := 1, cursor := (year_state_of jd).cursor, fractional_days := 0.0 }
      = month_state_of jd := rfl
  rw [ey] at hy
  rw [em] at hm
  simp only at hy hm
  unfold jd_to_cal_passes
  push_cast
  omega


/-- C16: the bulk year skip never overshoots and lands on a January 1.0. For
every `jd` with `more_years = floor(jd_minus_base)/366 - 1 > 0`, `more_days` is
the sum of the lengths of the first `more_years` years of the 400-year cycle
(years base, base+1, ..., base+more_years-1), `more_days ≤ jd_minus_base`, and
the skip sets `cursor` to `more_days`, the offset of January 1.0 of year
base + more_years. -/
theorem bulk_skip_exact (jd : ℚ) (hk : more_years_of (jd_minus_base_of jd) > 0) :
    more_years_of (jd_minus_base_of jd) = ⌊jd_minus_base_of jd⌋ / 366 - 1 ∧
    more_days_of (jd_minus_base_of jd)
      = ∑ i in Finset.range (more_years_of (jd_minus_base_of jd)).toNat,
          (if (4 ∣ (num_cycles_of jd * 400 + (i : Int))
              ∧ (¬ 100 ∣ (num_cycles_of jd * 400 + (i : Int))
                ∨ 400 ∣ (num_cycles_of jd * 400 + (i : Int)))) then (366 : Int) else 365) ∧
    ((more_days_of (jd_minus_base_of jd) : Int) : ℚ) ≤ jd_minus_base_of jd ∧
    bulk_skip (num_cycles_of jd * CYCLE_YEARS) (jd_minus_base_of jd)
      = (((more_days_of (jd_minus_base_of jd) : Int) : ℚ),
          num_cycles_of jd * 400 + more_years_of (jd_minus_base_of jd)) ∧
    base_jd_of jd + ((more_days_of (jd_minus_base_of jd) : Int) : ℚ)
      = cal_to_jd (num_cycles_of jd * 400 + more_years_of (jd_minus_base_of jd)) 1 1.0 := by
  have hd := more_days_of_eq (num_cycles_of jd) (jd_minus_base_of jd) hk
  have hb : bulk_skip (num_cycles_of jd * CYCLE_YEARS) (jd_minus_base_of jd)
      = (((more_days_of (jd_minus_base_of jd) : Int) : ℚ),
          num_cycles_of jd * 400 + more_years_of (jd_minus_base_of jd)) := by
    rw [bulk_skip_eq, if_pos hk]
    rfl
  refine ⟨more_years_of_eq _ (jd_minus_base_nonneg jd), ?_, ?_, hb, ?_⟩
  · have hs := sum_year_length (num_cycles_of jd * 400)
      (more_years_of (jd_minus_base_of jd)).toNat
    rw [Int.toNat_of_nonneg (le_of_lt hk)] at hs
    rw [hd, ← hs]
    apply Finset.sum_congr rfl
    intro i _
    rw [year_length_eq_dvd]
  · have h := (bulk_skip_spec (num_cycles_of jd) (jd_minus_base_of jd)
      (jd_minus_base_nonneg jd)).2.1
    have hb2 : bulk_skip (num_cycles_of jd * 400) (jd_minus_base_of jd)
      = (((more_days_of (jd_minus_base_of jd) : Int) : ℚ),
          num_cycles_of jd * 400 + more_years_of (jd_minus_base_of jd)) := hb
    rw [hb2] at h
    exact h
  · rw [cal_to_jd_eq, completed_months_days_one, hd, completed_years_days_base]
    unfold base_jd_of
    rw [CYCLE_DAYS_eq, JAN_0_YEAR_0, JAN_1_YEAR_0]
    push_cast
    norm_num
    ring

theorem bulk_skip_exact_witness :
    more_years_of (jd_minus_base_of 0) > 0 ∧
    (more_years_of (jd_minus_base_of 0) = ⌊jd_minus_base_of 0⌋ / 366 - 1 ∧
    more_days_of (jd_minus_base_of 0)
      = ∑ i in Finset.range (more_years_of (jd_minus_base_of 0)).toNat,
          (if (4 ∣ (num_cycles_of 0 * 400 + (i : Int))
              ∧ (¬ 100 ∣ (num_cycles_of 0 * 400 + (i : Int))
                ∨ 400 ∣ (num_cycles_of 0 * 400 + (i : Int)))) then (366 : Int) else 365) ∧
    ((more_days_of (jd_minus_base_of 0) : Int) : ℚ) ≤ jd_minus_base_of 0 ∧
    bulk_skip (num_cycles_of 0 * CYCLE_YEARS) (jd_minus_base_of 0)
      = (((more_days_of (jd_minus_base_of 0) : Int) : ℚ),
          num_cycles_of 0 * 400 + more_years_of (jd_minus_base_of 0)) ∧
    base_jd_of 0 + ((more_days_of (jd_minus_base_of 0) : Int) : ℚ)
      = cal_to_jd (num_cycles_of 0 * 400 + more_years_of (jd_minus_base_of 0)) 1 1.0) :=
  have hN : num_cycles_of 0 = -12 := by
    unfold num_cycles_of
    rw [CYCLE_DAYS_eq, JAN_1_YEAR_0, Int.floor_eq_iff]
    norm_num
  have hj : jd_minus_base_of 0 = 32104.5 := by
    unfold jd_minus_base_of
    rw [hN, CYCLE_DAYS_eq, JAN_1_YEAR_0]
    norm_num
  have hf : ⌊(32104.5 : ℚ)⌋ = 32104 := by
    rw [Int.floor_eq_iff]
    norm_num
  have hk : more_years_of (jd_minus_base_of 0) > 0 := by
    rw [hj]
    unfold more_years_of
    rw [hf]
    decide
  ⟨hk, bulk_skip_exact 0 hk⟩

/-- With exact integers and rationals (no `int` overflow, no rounding): year-loop postcondition. When the year loop of `jd_to_cal` ends,
`cursor` is the number of days from the cycle base to January 1.0 of the final
`year` (the year returned), and the remaining budget satisfies
`0 ≤ jd_minus_base - cursor < (366 if is_leap(year) else 365)`. -/
theorem year_loop_postcondition (jd : ℚ) :
    (jd_to_cal jd).y = (year_state_of jd).year ∧
    (year_state_of jd).cursor = cal_to_jd (year_state_of jd).year 1 1.0 - base_jd_of jd ∧
    0 ≤ jd_minus_base_of jd - (year_state_of jd).cursor ∧
    jd_minus_base_of jd - (year_state_of jd).cursor
      < (if is_leap (year_state_of jd).year then (366 : ℚ) else 365) := by
  obtain ⟨y1, y2, y3, _⟩ := year_state_spec jd
  refine ⟨rfl, ?_, by linarith, ?_⟩
  · rw [y1, cal_to_jd_eq, completed_months_days_one, completed_years_days_base]
    unfold base_jd_of
    rw [CYCLE_DAYS_eq, JAN_0_YEAR_0, JAN_1_YEAR_0]
    push_cast
    norm_num
    ring
  · have e : ((year_length (year_state_of jd).year : Int) : ℚ)
        = (if is_leap (year_state_of jd).year then (366 : ℚ) else 365) := by
      unfold year_length
      split_ifs <;> simp [LONG_YR, SHORT_YR]
    rw [← e]
    linarith

/-- With exact integers and rationals (no `int` overflow, no rounding): year-refinement bound. For every Julian date the year loop of
`jd_to_cal` consumes at most 2 whole years after the bulk skip: the final year
exceeds `num_cycles*400 + max(more_years, 0)` by the final `more`, which is at
most 2; so the loop is left through its `break` (counter below the cap of 400
and the loop test false), after at most 3 passes. -/
theorem year_refinement_bound (jd : ℚ) :
    (year_state_of jd).year
      - (num_cycles_of jd * CYCLE_YEARS + max (more_years_of (jd_minus_base_of jd)) 0)
      = (year_state_of jd).more ∧
    0 ≤ (year_state_of jd).more ∧ (year_state_of jd).more ≤ 2 ∧
    (year_state_of jd).more < CYCLE_YEARS ∧
    ¬ ((year_state_of jd).cursor
        + (((if is_leap (year_state_of jd).year then LONG_YR else SHORT_YR) : Int) : ℚ)
      ≤ jd_minus_base_of jd) ∧
    year_loop_passes (bulk_skip (num_cycles_of jd * CYCLE_YEARS) (jd_minus_base_of jd)).2
      (jd_minus_base_of jd)
      { more := 0
        cursor := (bulk_skip (num_cycles_of jd * CYCLE_YEARS) (jd_minus_base_of jd)).1
        year := (bulk_skip (num_cycles_of jd * CYCLE_YEARS) (jd_minus_base_of jd)).2 } ≤ 3 := by
  obtain ⟨e1, e2⟩ := year_state_year jd
  obtain ⟨_, _, y3, _⟩ := year_state_spec jd
  have h2 := year_state_more_le jd
  have hy := year_loop_passes_le
    (bulk_skip (num_cycles_of jd * CYCLE_YEARS) (jd_minus_base_of jd)).2 (jd_minus_base_of jd) 400
    { more := 0
      cursor := (bulk_skip (num_cycles_of jd * CYCLE_YEARS) (jd_minus_base_of jd)).1
      year := (bulk_skip (num_cycles_of jd * CYCLE_YEARS) (jd_minus_base_of jd)).2 }
    (by simp) (by simp)
  have ey : year_loop (bulk_skip (num_cycles_of jd * CYCLE_YEARS) (jd_minus_base_of jd)).2
      (jd_minus_base_of jd)
      { more := 0
        cursor := (bulk_skip (num_cycles_of jd * CYCLE_YEARS) (jd_minus_base_of jd)).1
        year := (bulk_skip (num_cycles_of jd * CYCLE_YEARS) (jd_minus_base_of jd)).2 }
      = year_state_of jd := rfl
  rw [ey] at hy
  simp only at hy
  refine ⟨?_, e2, h2, ?_, ?_, ?_⟩
  · rw [CYCLE_YEARS]
    omega
  · rw [CYCLE_YEARS]
    omega
  · exact not_le.mpr y3
  · omega

/-- With exact integers and rationals (no `int` overflow, no rounding): total iteration bound. For every Julian date the two loops of
`jd_to_cal` execute their bodies at most 14 times in total, the passes that
execute `break` included. -/
theorem total_passes_bound (jd : ℚ) : jd_to_cal_passes jd ≤ 14 := by
  have h := jd_to_cal_passes_le jd
  have h2 := year_state_more_le jd
  obtain ⟨_, m2, _⟩ := month_state_spec jd
  rcases lt_or_eq_of_le h2 with hlt | heq
  · omega
  · have := month_state_month_le jd heq
    omega


/-! ## 32-bit `int` arithmetic in `cal_to_jd` -/

theorem wrap32_of_range (x : Int) (h1 : -2147483648 ≤ x) (h2 : x ≤ 2147483647) :
    wrap32 x = x := by
  unfold wrap32
  omega

/-- Within |y| ≤ 5879610 the 32-bit computation of the day count of
`cal_to_jd` agrees with exact arithmetic. -/
theorem completed_years_days32_eq (y : Int) (h1 : -5879610 ≤ y) (h2 : y ≤ 5879610) :
    completed_years_days32 y = completed_years_days y := by
  rw [completed_years_days_eq]
  unfold completed_years_days32
  simp only [CYCLE_YEARS, SHORT_YR, LONG_YR]
  rcases lt_trichotomy y 0 with h | h | h
  · rw [if_neg (by omega), if_neg (by omega)]
    rw [tdiv_of_nonpos y 4 (by omega) (by omega), tdiv_of_nonpos y 100 (by omega) (by omega),
      tdiv_of_nonpos y 400 (by omega) (by omega)]
    rw [wrap32_of_range (-(-y / 4) - -(-y / 100)) (by omega) (by omega)]
    rw [wrap32_of_range (-(-y / 4) - -(-y / 100) + -(-y / 400)) (by omega) (by omega)]
    rw [wrap32_of_range (y - (-(-y / 4) - -(-y / 100) + -(-y / 400))) (by omega) (by omega)]
    rw [wrap32_of_range ((y - (-(-y / 4) - -(-y / 100) + -(-y / 400))) * 365) (by omega) (by omega)]
    rw [wrap32_of_range ((-(-y / 4) - -(-y / 100) + -(-y / 400)) * 366) (by omega) (by omega)]
    rw [wrap32_of_range _ (by omega) (by omega)]
    omega
  · subst h
    decide
  · rw [if_pos (by omega), if_pos (by omega)]
    rw [wrap32_of_range (y - 1) (by omega) (by omega)]
    rw [tdiv_of_nonneg _ 4 (by omega) (by omega), tdiv_of_nonneg _ 100 (by omega) (by omega),
      tdiv_of_nonneg _ 400 (by omega) (by omega)]
    rw [wrap32_of_range ((y - 1) / 4 - (y - 1) / 100) (by omega) (by omega)]
    rw [wrap32_of_range ((y - 1) / 4 - (y - 1) / 100 + (y - 1) / 400) (by omega) (by omega)]
    rw [wrap32_of_range ((y - 1) / 4 - (y - 1) / 100 + (y - 1) / 400 + 1) (by omega) (by omega)]
    rw [wrap32_of_range (y - ((y - 1) / 4 - (y - 1) / 100 + (y - 1) / 400 + 1)) (by omega)
      (by omega)]
    rw [wrap32_of_range ((y - ((y - 1) / 4 - (y - 1) / 100 + (y - 1) / 400 + 1)) * 365)
      (by omega) (by omega)]
    rw [wrap32_of_range (((y - 1) / 4 - (y - 1) / 100 + (y - 1) / 400 + 1) * 366)
      (by omega) (by omega)]
    rw [wrap32_of_range _ (by omega) (by omega)]
    omega


/-! ## The code with 32-bit `int`: basic facts -/

theorem cast32_of_range (n : Int) (h1 : -2147483648 ≤ n) (h2 : n ≤ 2147483647) :
    cast32 n = n := by
  unfold cast32
  rw [if_pos ⟨h1, h2⟩]

theorem cast32_of_large (n : Int) (h : 2147483647 < n) : cast32 n = -2147483648 := by
  unfold cast32
  rw [if_neg (by omega)]

theorem cast32_of_small (n : Int) (h : n < -2147483648) : cast32 n = -2147483648 := by
  unfold cast32
  rw [if_neg (by omega)]

theorem jd_to_cal32_eq (jd : ℚ) :
    jd_to_cal32 jd
      = { y := (year_state32_of jd).year, m := (month_state32_of jd).month,
          d := (month_state32_of jd).fractional_days } := rfl

theorem cal_to_jd32_eq (y m : Int) (d : ℚ) (h1 : 1 ≤ m) (h2 : m ≤ 12) :
    cal_to_jd32 y m d
      = ((completed_years_days32 y : Int) : ℚ) + ((completed_months_days y m : Int) : ℚ)
        + d + JAN_0_YEAR_0 := by
  have hw : wrap32 (m - 1) = m - 1 := wrap32_of_range _ (by omega) (by omega)
  unfold cal_to_jd32 completed_years_days32 completed_months_days
  simp only [hw]
  split_ifs <;> push_cast <;> ring

theorem year_length_le (y : Int) : year_length y ≤ 366 := by
  unfold year_length
  cases is_leap y <;> decide

theorem the_month_len_le (y m : Int) (h1 : 1 ≤ m) (h2 : m ≤ 12) : the_month_len y m ≤ 31 := by
  unfold the_month_len
  interval_cases m <;> cases is_leap y <;> decide

/-- When the budget exceeds what 400 years can take, the 32-bit year loop runs
until `more` reaches `CYCLE_YEARS`: it is not left through its `break`. -/
theorem year_loop32_cap (ysf : Int) (jmb : ℚ)
    (hy1 : -2147483648 ≤ ysf) (hy2 : ysf + 400 ≤ 2147483647) :
    ∀ (n : Nat) (s : YearState), (400 - s.more).toNat = n → 0 ≤ s.more → s.more ≤ 400 →
      s.cursor + 366 * (400 - (s.more : ℚ)) ≤ jmb →
      -2147483648 ≤ s.year → s.year + (400 - s.more) ≤ 2147483647 →
      (year_loop32 ysf jmb s).more = 400 ∧
      (year_loop32 ysf jmb s).year = s.year + (400 - s.more) ∧
      (year_loop32 ysf jmb s).cursor
        = s.cursor + ((completed_years_days (ysf + 400)
            - completed_years_days (ysf + s.more) : Int) : ℚ) ∧
      ((year_loop32_passes ysf jmb s : Nat) : Int) = 400 - s.more := by
  intro n
  induction n with
  | zero =>
    intro s hn h0 h4 _ _ _
    have h : s.more = 400 := by omega
    have hge : ¬ s.more < CYCLE_YEARS := by
      simp only [CYCLE_YEARS]; omega
    rw [year_loop32, year_loop32_passes, if_neg hge, if_neg hge, h]
    simp
  | succ k ih =>
    intro s hn h0 h4 hb hs1 hs2
    have hlt : s.more < CYCLE_YEARS := by
      simp only [CYCLE_YEARS]; omega
    have hw : wrap32 (ysf + s.more) = ysf + s.more := wrap32_of_range _ (by omega) (by omega)
    have hw2 : wrap32 (s.year + 1) = s.year + 1 := wrap32_of_range _ (by omega) (by omega)
    rw [year_loop32, year_loop32_passes, if_pos hlt, if_pos hlt]
    simp only
    rw [hw, hw2]
    have hlen : (if is_leap (ysf + s.more) = true then LONG_YR else SHORT_YR)
        = year_length (ysf + s.more) := rfl
    rw [hlen]
    have hle : ((year_length (ysf + s.more) : Int) : ℚ) ≤ 366 := by
      exact_mod_cast year_length_le (ysf + s.more)
    have hm : (s.more : ℚ) ≤ 399 := by
      have : s.more ≤ 399 := by omega
      exact_mod_cast this
    have hcond : s.cursor + ((year_length (ysf + s.more) : Int) : ℚ) ≤ jmb := by
      nlinarith
    rw [if_pos hcond, if_pos hcond]
    have := ih { more := s.more + 1,
                 cursor := s.cursor + ((year_length (ysf + s.more) : Int) : ℚ),
                 year := s.year + 1 }
      (by simp only; omega) (by simp only; omega) (by simp only; omega)
      (by simp only; push_cast; nlinarith) (by simp only; omega) (by simp only; omega)
    simp only at this
    obtain ⟨a, b, c, d⟩ := this
    refine ⟨a, by rw [b]; ring, ?_, by push_cast; omega⟩
    rw [c]
    have e : ysf + (s.more + 1) = (ysf + s.more) + 1 := by ring
    rw [e, completed_years_days_succ]
    push_cast
    ring

/-- When the budget exceeds what twelve months can take, the month loop falls
through with `month = 13` and `fractional_days` untouched. -/
theorem month_loop_fall_through (year : Int) (jmb : ℚ) :
    ∀ (n : Nat) (s : MonthState), (13 - s.month).toNat = n → 1 ≤ s.month → s.month ≤ 13 →
      s.cursor + 31 * (13 - (s.month : ℚ)) ≤ jmb →
      (month_loop year jmb s).month = 13 ∧
      (month_loop year jmb s).fractional_days = s.fractional_days ∧
      ((month_loop_passes year jmb s : Nat) : Int) = 13 - s.month := by
  intro n
  induction n with
  | zero =>
    intro s hn h1 h13 _
    have h : s.month = 13 := by omega
    have hge : ¬ s.month ≤ 12 := by omega
    rw [month_loop, month_loop_passes, if_neg hge, if_neg hge, h]
    simp
  | succ k ih =>
    intro s hn h1 h13 hb
    have hlt : s.month ≤ 12 := by omega
    rw [month_loop, month_loop_passes, if_pos hlt, if_pos hlt]
    simp only
    have hle : ((the_month_len year s.month : Int) : ℚ) ≤ 31 := by
      exact_mod_cast the_month_len_le year s.month h1 hlt
    have hm : (s.month : ℚ) ≤ 12 := by exact_mod_cast hlt
    have hcond : s.cursor + ((the_month_len year s.month : Int) : ℚ) ≤ jmb := by
      nlinarith
    rw [if_pos hcond, if_pos hcond]
    have := ih { s with month := s.month + 1,
                        cursor := s.cursor + ((the_month_len year s.month : Int) : ℚ) }
      (by simp only; omega) (by simp only; omega) (by simp only; omega)
      (by simp only; push_cast; nlinarith)
    simp only at this
    obtain ⟨a, b, c⟩ := this
    exact ⟨a, b, by push_cast; omega⟩


theorem cast32_bounds (n : Int) : -2147483648 ≤ cast32 n ∧ cast32 n ≤ 2147483647 := by
  unfold cast32
  split_ifs with h
  · exact h
  · constructor <;> decide

theorem more_years32_of_nonpos (jmb : ℚ) (h : cast32 ⌊jmb⌋ ≤ 0) : more_years32_of jmb ≤ 0 := by
  obtain ⟨c1, _⟩ := cast32_bounds ⌊jmb⌋
  unfold more_years32_of
  rw [LONG_YR, tdiv_of_nonpos _ 366 h (by omega)]
  generalize cast32 ⌊jmb⌋ = a at h c1
  rw [wrap32_of_range _ (by omega) (by omega)]
  omega

theorem bulk_skip32_of_nonpos (year : Int) (jmb : ℚ) (h : cast32 ⌊jmb⌋ ≤ 0) :
    bulk_skip32 year jmb = (0, year) := by
  have hk := more_years32_of_nonpos jmb h
  unfold bulk_skip32
  rw [if_neg (by omega)]
  norm_num

/-- Far-future overflow: in the cycle with `num_cycles = 14700` the `int` product
`num_cycles * CYCLE_DAYS` wraps, `jd_minus_base` is at least 2^32, the year loop
runs its 400 passes and the month loop falls through. -/
theorem stages32_overflow (jd : ℚ) (hf : ⌊(jd - JAN_1_YEAR_0) / (CYCLE_DAYS : ℚ)⌋ = 14700) :
    num_cycles32_of jd = 14700 ∧
    jd_minus_base32_of jd = jd - 1721059.5 + 2147341396 ∧
    4294967296 ≤ jd_minus_base32_of jd ∧
    (year_state32_of jd).more = 400 ∧
    (year_state32_of jd).cursor = 146097 ∧
    (year_state32_of jd).year = 5880400 ∧
    (month_state32_of jd).month = 13 ∧
    (month_state32_of jd).fractional_days = 0 ∧
    jd_to_cal32_passes jd = 412 := by
  have hN : num_cycles32_of jd = 14700 := by
    unfold num_cycles32_of
    rw [hf]
    decide
  have hw : wrap32 (14700 * CYCLE_DAYS) = -2147341396 := by decide
  have hj : jd_minus_base32_of jd = jd - 1721059.5 + 2147341396 := by
    unfold jd_minus_base32_of
    rw [hN, hw, JAN_1_YEAR_0]
    push_cast
    norm_num
    ring
  have hlow : 4294967296 ≤ jd_minus_base32_of jd := by
    rw [hj]
    have h := (Int.floor_eq_iff.mp hf).1
    rw [CYCLE_DAYS_eq, JAN_1_YEAR_0] at h
    rw [le_div_iff₀ (by norm_num)] at h
    push_cast at h
    norm_num at h ⊢
    linarith
  have hfl : (2147483647 : Int) < ⌊jd_minus_base32_of jd⌋ := by
    have : ((4294967296 : Int) : ℚ) ≤ jd_minus_base32_of jd := by
      push_cast
      exact hlow
    have := Int.le_floor.mpr this
    omega
  have hc : cast32 ⌊jd_minus_base32_of jd⌋ ≤ 0 := by
    rw [cast32_of_large _ hfl]
    decide
  have hy : wrap32 (num_cycles32_of jd * CYCLE_YEARS) = 5880000 := by
    rw [hN]
    decide
  have hb := bulk_skip32_of_nonpos 5880000 (jd_minus_base32_of jd) hc
  have hcap := year_loop32_cap 5880000 (jd_minus_base32_of jd) (by decide) (by decide) 400
    { more := 0, cursor := 0, year := 5880000 } (by simp) (by simp) (by simp)
    (by simp only; norm_num; linarith) (by simp) (by simp)
  simp only at hcap
  have hys : year_state32_of jd
      = year_loop32 5880000 (jd_minus_base32_of jd) { more := 0, cursor := 0, year := 5880000 } := by
    unfold year_state32_of
    rw [hy, hb]
  have hyp : year_loop32_passes
      (bulk_skip32 (wrap32 (num_cycles32_of jd * CYCLE_YEARS)) (jd_minus_base32_of jd)).2
      (jd_minus_base32_of jd)
      { more := 0
        cursor := (bulk_skip32 (wrap32 (num_cycles32_of jd * CYCLE_YEARS))
          (jd_minus_base32_of jd)).1
        year := (bulk_skip32 (wrap32 (num_cycles32_of jd * CYCLE_YEARS))
          (jd_minus_base32_of jd)).2 }
      = year_loop32_passes 5880000 (jd_minus_base32_of jd)
          { more := 0, cursor := 0, year := 5880000 } := by
    rw [hy, hb]
  obtain ⟨c1, c2, c3, c4⟩ := hcap
  have e400 : completed_years_days (5880000 + 400) - completed_years_days (5880000 + 0)
      = 146097 := by decide
  rw [e400] at c3
  have hcur : (year_state32_of jd).cursor = 146097 := by
    rw [hys, c3]
    norm_num
  have hyear : (year_state32_of jd).year = 5880400 := by
    rw [hys, c2]
    norm_num
  have hfall := month_loop_fall_through (year_state32_of jd).year (jd_minus_base32_of jd) 12
    { month := 1, cursor := (year_state32_of jd).cursor, fractional_days := 0.0 }
    (by simp) (by simp) (by simp)
    (by simp only; rw [hcur]; norm_num; linarith)
  simp only at hfall
  obtain ⟨f1, f2, f3⟩ := hfall
  refine ⟨hN, hj, hlow, by rw [hys, c1], hcur, hyear, f1, ?_, ?_⟩
  · have : (month_state32_of jd).fractional_days = 0.0 := f2
    rw [this]
    norm_num
  · unfold jd_to_cal32_passes
    rw [hyp]
    omega

/-- Negative `jd_minus_base` (the wrapped base lies after `jd`): no bulk skip,
both loops `break` in their first pass, and the day is `jd_minus_base + 1`. -/
theorem stages32_negative (jd : ℚ) (h : jd_minus_base32_of jd < 0) :
    (year_state32_of jd).more = 0 ∧
    (year_state32_of jd).cursor = 0 ∧
    jd_to_cal32 jd
      = { y := wrap32 (num_cycles32_of jd * CYCLE_YEARS), m := 1,
          d := jd_minus_base32_of jd + 1 } := by
  have hfl : ⌊jd_minus_base32_of jd⌋ < 0 := by
    have : jd_minus_base32_of jd < ((0 : Int) : ℚ) := by
      push_cast
      exact h
    exact Int.floor_lt.mpr this
  have hc : cast32 ⌊jd_minus_base32_of jd⌋ ≤ 0 := by
    unfold cast32
    split_ifs <;> omega
  have hb := bulk_skip32_of_nonpos (wrap32 (num_cycles32_of jd * CYCLE_YEARS))
    (jd_minus_base32_of jd) hc
  have hys : year_state32_of jd
      = { more := 0, cursor := 0, year := wrap32 (num_cycles32_of jd * CYCLE_YEARS) } := by
    unfold year_state32_of
    rw [hb]
    simp only
    rw [year_loop32]
    simp only
    rw [if_pos (show (0 : Int) < CYCLE_YEARS by decide)]
    have hlen : ∀ y : Int, (if is_leap y = true then LONG_YR else SHORT_YR) = year_length y :=
      fun _ => rfl
    rw [hlen]
    have hge : (365 : ℚ) ≤ ((year_length (wrap32
        (wrap32 (num_cycles32_of jd * CYCLE_YEARS) + 0)) : Int) : ℚ) := by
      exact_mod_cast year_length_ge _
    rw [if_neg (by linarith)]
  have hms : month_state32_of jd
      = { month := 1, cursor := 0, fractional_days := jd_minus_base32_of jd + 1 } := by
    unfold month_state32_of
    rw [hys]
    simp only
    rw [month_loop]
    simp only
    rw [if_pos (show (1 : Int) ≤ 12 by decide)]
    have hge : (28 : ℚ) ≤ ((the_month_len (wrap32 (num_cycles32_of jd * CYCLE_YEARS)) 1 : Int) : ℚ) := by
      exact_mod_cast the_month_len_pos _ 1 (by decide) (by decide)
    rw [if_neg (by linarith)]
    norm_num
  refine ⟨by rw [hys], by rw [hys], ?_⟩
  rw [jd_to_cal32_eq, hms, hys]


/-! ## Where the 32-bit code agrees with exact integer arithmetic -/

theorem year_loop32_eq (ysf : Int) (jmb : ℚ)
    (hy1 : -2147483648 ≤ ysf) (hy2 : ysf + 400 ≤ 2147483647) :
    ∀ (n : Nat) (s : YearState), (400 - s.more).toNat = n → 0 ≤ s.more →
      -2147483648 ≤ s.year → s.year + (400 - s.more) ≤ 2147483647 →
      year_loop32 ysf jmb s = year_loop ysf jmb s ∧
      year_loop32_passes ysf jmb s = year_loop_passes ysf jmb s := by
  intro n
  induction n with
  | zero =>
    intro s hn h0 _ _
    have hge : ¬ s.more < CYCLE_YEARS := by
      simp only [CYCLE_YEARS]; omega
    rw [year_loop32, year_loop, year_loop32_passes, year_loop_passes, if_neg hge, if_neg hge,
      if_neg hge, if_neg hge]
    exact ⟨rfl, rfl⟩
  | succ k ih =>
    intro s hn h0 hs1 hs2
    have hlt : s.more < CYCLE_YEARS := by
      simp only [CYCLE_YEARS]; omega
    have hw : wrap32 (ysf + s.more) = ysf + s.more := wrap32_of_range _ (by omega) (by omega)
    have hw2 : wrap32 (s.year + 1) = s.year + 1 := wrap32_of_range _ (by omega) (by omega)
    rw [year_loop32, year_loop, year_loop32_passes, year_loop_passes, if_pos hlt, if_pos hlt,
      if_pos hlt, if_pos hlt]
    simp only
    rw [hw, hw2]
    have hlen : (if is_leap (ysf + s.more) = true then LONG_YR else SHORT_YR)
        = year_length (ysf + s.more) := rfl
    rw [hlen]
    by_cases hcond : s.cursor + ((year_length (ysf + s.more) : Int) : ℚ) ≤ jmb
    · rw [if_pos hcond, if_pos hcond, if_pos hcond, if_pos hcond]
      have := ih { more := s.more + 1,
                   cursor := s.cursor + ((year_length (ysf + s.more) : Int) : ℚ),
                   year := s.year + 1 }
        (by simp only; omega) (by simp only; omega) (by simp only; omega) (by simp only; omega)
      obtain ⟨a, b⟩ := this
      exact ⟨a, by rw [b]⟩
    · rw [if_neg hcond, if_neg hcond, if_neg hcond, if_neg hcond]
      exact ⟨rfl, rfl⟩

theorem more_years32_of_eq (jmb : ℚ) (h0 : 0 ≤ jmb) (h1 : jmb < 146097) :
    more_years32_of jmb = more_years_of jmb ∧ -1 ≤ more_years_of jmb ∧ more_years_of jmb ≤ 398 := by
  have hfl0 : 0 ≤ ⌊jmb⌋ := Int.floor_nonneg.mpr h0
  have hfl1 : ⌊jmb⌋ < 146097 := by
    have : jmb < ((146097 : Int) : ℚ) := by
      push_cast
      exact h1
    exact Int.floor_lt.mpr this
  have e := more_years_of_eq jmb h0
  unfold more_years32_of
  rw [cast32_of_range _ (by omega) (by omega), LONG_YR, tdiv_of_nonneg _ _ hfl0 (by omega)]
  rw [wrap32_of_range _ (by omega) (by omega), e]
  refine ⟨rfl, by omega, by omega⟩

theorem more_days32_of_eq (jmb : ℚ) (h0 : 0 ≤ jmb) (h1 : jmb < 146097)
    (hk : more_years_of jmb > 0) :
    more_days32_of jmb = more_days_of jmb ∧ 0 ≤ more_days_of jmb ∧ more_days_of jmb ≤ 146097 := by
  obtain ⟨e, _, k2⟩ := more_years32_of_eq jmb h0 h1
  unfold more_days32_of more_days_of
  simp only
  rw [e]
  generalize more_years_of jmb = k at hk k2
  rw [SHORT_YR]
  rw [wrap32_of_range (k - 1) (by omega) (by omega)]
  rw [tdiv_of_nonneg _ 4 (by omega) (by omega), tdiv_of_nonneg _ 100 (by omega) (by omega),
    tdiv_of_nonneg _ 400 (by omega) (by omega)]
  rw [wrap32_of_range (k * 365) (by omega) (by omega)]
  rw [wrap32_of_range (k * 365 + (k - 1) / 4) (by omega) (by omega)]
  rw [wrap32_of_range (k * 365 + (k - 1) / 4 - (k - 1) / 100) (by omega) (by omega)]
  rw [wrap32_of_range (k * 365 + (k - 1) / 4 - (k - 1) / 100 + (k - 1) / 400) (by omega)
    (by omega)]
  rw [wrap32_of_range _ (by omega) (by omega)]
  refine ⟨rfl, by omega, by omega⟩

theorem bulk_skip32_eq (year : Int) (jmb : ℚ) (h0 : 0 ≤ jmb) (h1 : jmb < 146097)
    (hy1 : -2147480000 ≤ year) (hy2 : year ≤ 2147480000) :
    bulk_skip32 year jmb = bulk_skip year jmb := by
  obtain ⟨e, k1, k2⟩ := more_years32_of_eq jmb h0 h1
  rw [bulk_skip_eq]
  unfold bulk_skip32
  rw [e]
  by_cases hk : more_years_of jmb > 0
  · rw [if_pos hk, if_pos hk, (more_days32_of_eq jmb h0 h1 hk).1,
      wrap32_of_range _ (by omega) (by omega)]
    norm_num
  · rw [if_neg hk, if_neg hk]
    norm_num

/-- For a Julian date whose cycle index lies within ±14699 no `int` operation
of `jd_to_cal` overflows: the 32-bit code computes what exact integer
arithmetic computes, in the same number of loop passes. -/
theorem jd_to_cal32_eq_exact (jd : ℚ) (h1 : -14699 ≤ num_cycles_of jd)
    (h2 : num_cycles_of jd ≤ 14699) :
    num_cycles32_of jd = num_cycles_of jd ∧
    jd_minus_base32_of jd = jd_minus_base_of jd ∧
    year_state32_of jd = year_state_of jd ∧
    month_state32_of jd = month_state_of jd ∧
    jd_to_cal32 jd = jd_to_cal jd ∧
    jd_to_cal32_passes jd = jd_to_cal_passes jd := by
  have hN : num_cycles32_of jd = num_cycles_of jd := by
    unfold num_cycles32_of
    exact cast32_of_range _ (by unfold num_cycles_of at h1; omega)
      (by unfold num_cycles_of at h2; omega)
  have hj : jd_minus_base32_of jd = jd_minus_base_of jd := by
    unfold jd_minus_base32_of jd_minus_base_of
    rw [hN, CYCLE_DAYS_eq, wrap32_of_range _ (by omega) (by omega)]
  have hy : wrap32 (num_cycles32_of jd * CYCLE_YEARS) = num_cycles_of jd * CYCLE_YEARS := by
    rw [hN, CYCLE_YEARS, wrap32_of_range _ (by omega) (by omega)]
  have j0 := jd_minus_base_nonneg jd
  have j1 := jd_minus_base_lt jd
  have hb : bulk_skip32 (num_cycles_of jd * CYCLE_YEARS) (jd_minus_base_of jd)
      = bulk_skip (num_cycles_of jd * CYCLE_YEARS) (jd_minus_base_of jd) :=
    bulk_skip32_eq _ _ j0 j1 (by rw [CYCLE_YEARS]; omega) (by rw [CYCLE_YEARS]; omega)
  obtain ⟨_, k1, k2⟩ := more_years32_of_eq (jd_minus_base_of jd) j0 j1
  have hs := bulk_skip_snd (num_cycles_of jd * CYCLE_YEARS) (jd_minus_base_of jd)
  have hmax : 0 ≤ max (more_years_of (jd_minus_base_of jd)) 0
      ∧ max (more_years_of (jd_minus_base_of jd)) 0 ≤ 398 := by
    rcases le_total (more_years_of (jd_minus_base_of jd)) 0 with hk | hk
    · rw [max_eq_right hk]; omega
    · rw [max_eq_left hk]; omega
  have hs2 : -2147483648 ≤ (bulk_skip (num_cycles_of jd * CYCLE_YEARS) (jd_minus_base_of jd)).2
      ∧ (bulk_skip (num_cycles_of jd * CYCLE_YEARS) (jd_minus_base_of jd)).2 + 400
        ≤ 2147483647 := by
    rw [hs, CYCLE_YEARS]
    omega
  have hl := year_loop32_eq
    (bulk_skip (num_cycles_of jd * CYCLE_YEARS) (jd_minus_base_of jd)).2 (jd_minus_base_of jd)
    hs2.1 hs2.2 400
    { more := 0
      cursor := (bulk_skip (num_cycles_of jd * CYCLE_YEARS) (jd_minus_base_of jd)).1
      year := (bulk_skip (num_cycles_of jd * CYCLE_YEARS) (jd_minus_base_of jd)).2 }
    (by simp) (by simp) hs2.1 (by simp only; omega)
  have hys : year_state32_of jd = year_state_of jd := by
    unfold year_state32_of year_state_of
    rw [hy, hj, hb]
    exact hl.1
  have hms : month_state32_of jd = month_state_of jd := by
    unfold month_state32_of month_state_of
    rw [hys, hj]
  refine ⟨hN, hj, hys, hms, ?_, ?_⟩
  · rw [jd_to_cal32_eq, jd_to_cal_eq, hys, hms]
  · unfold jd_to_cal32_passes jd_to_cal_passes
    rw [hy, hj, hb, hys, hl.2]


/-! ## The claims on the 32-bit code: evaluations at failing inputs

Every value below is an integer, a half or a quarter below 2^53 in magnitude,
hence an exact `double`; the only rounded operation is the quotient by
`CYCLE_DAYS`, whose floor is unaffected. -/

theorem floor_overflow_a :
    ⌊((2149346959.5 : ℚ) - JAN_1_YEAR_0) / (CYCLE_DAYS : ℚ)⌋ = 14700 := by
  rw [CYCLE_DAYS_eq, JAN_1_YEAR_0, Int.floor_eq_iff]
  norm_num

theorem floor_overflow_b :
    ⌊((2149346959.75 : ℚ) - JAN_1_YEAR_0) / (CYCLE_DAYS : ℚ)⌋ = 14700 := by
  rw [CYCLE_DAYS_eq, JAN_1_YEAR_0, Int.floor_eq_iff]
  norm_num

theorem jd_minus_base32_deep_past :
    num_cycles32_of (-2145758743.75) = -14700 ∧
    jd_minus_base32_of (-2145758743.75) = -4294821199.25 := by
  have hf : ⌊((-2145758743.75 : ℚ) - JAN_1_YEAR_0) / (CYCLE_DAYS : ℚ)⌋ = -14700 := by
    rw [CYCLE_DAYS_eq, JAN_1_YEAR_0, Int.floor_eq_iff]
    norm_num
  have hN : num_cycles32_of (-2145758743.75) = -14700 := by
    unfold num_cycles32_of
    rw [hf]
    decide
  have hw : wrap32 (-14700 * CYCLE_DAYS) = 2147341396 := by decide
  refine ⟨hN, ?_⟩
  unfold jd_minus_base32_of
  rw [hN, hw, JAN_1_YEAR_0]
  norm_num

theorem jd_to_cal_of_cal_to_jd_eq (jd : ℚ) (y m : Int) (d : ℚ) (h1 : 1 ≤ m) (h2 : m ≤ 12)
    (h3 : 1 ≤ d) (h4 : d < ((the_month_len y m : Int) : ℚ) + 1) (h : cal_to_jd y m d = jd) :
    jd_to_cal jd = { y := y, m := m, d := d } := by
  rw [← h]
  exact jd_to_cal_complete y m d h1 h2 h3 h4

theorem num_cycles_of_eq (jd : ℚ) (n : Int)
    (h1 : 1721059.5 + (n : ℚ) * 146097 ≤ jd) (h2 : jd < 1721059.5 + ((n : ℚ) + 1) * 146097) :
    num_cycles_of jd = n := by
  unfold num_cycles_of
  rw [CYCLE_DAYS_eq, JAN_1_YEAR_0, Int.floor_eq_iff]
  constructor
  · rw [le_div_iff₀ (by norm_num)]
    push_cast
    norm_num
    linarith
  · rw [div_lt_iff₀ (by norm_num)]
    push_cast
    norm_num
    linarith

/-- C1 at the failing input (6000000, 1, 1.0): the `int` sum of cal2jd.c line 42
wraps (the defect of C14), `cal_to_jd` returns -2101791236.5, and `jd_to_cal`
maps that back to December 12 of year -5759222; with exact integers the round
trip returns (6000000, 1, 1). -/
theorem roundtrip_cal_jd_cal_int32 :
    cal_to_jd32 6000000 1 1 = -2101791236.5 ∧
    jd_to_cal32 (cal_to_jd32 6000000 1 1) = { y := -5759222, m := 12, d := 12 } ∧
    jd_to_cal (cal_to_jd 6000000 1 1) = { y := 6000000, m := 1, d := 1 } := by
  have e1 : completed_years_days32 6000000 = -2103512296 := by decide
  have h1 : cal_to_jd32 6000000 1 1 = -2101791236.5 := by
    rw [cal_to_jd32_eq _ _ _ (by decide) (by decide), e1, completed_months_days_one,
      JAN_0_YEAR_0]
    norm_num
  have hN : num_cycles_of (-2101791236.5) = -14399 := by
    apply num_cycles_of_eq <;> norm_num
  have hx : jd_to_cal (-2101791236.5) = { y := -5759222, m := 12, d := 12 } := by
    apply jd_to_cal_of_cal_to_jd_eq _ _ _ _ (by decide) (by decide) (by norm_num)
    · have e : the_month_len (-5759222) 12 = 31 := by decide
      rw [e]
      norm_num
    · have e2 : completed_years_days (-5759222) = -2103512641 := by decide
      have e3 : completed_months_days (-5759222) 12 = 334 := by decide
      rw [cal_to_jd_eq, e2, e3, JAN_0_YEAR_0]
      norm_num
  refine ⟨h1, ?_, ?_⟩
  · rw [h1, (jd_to_cal32_eq_exact _ (by rw [hN]; decide) (by rw [hN]; decide)).2.2.2.2.1, hx]
  · have e : the_month_len 6000000 1 = 31 := by decide
    exact jd_to_cal_complete 6000000 1 1 (by decide) (by decide) (by norm_num)
      (by rw [e]; norm_num)

/-- C2 at the failing input jd = 2149346959.5 (January 1.0 of year 5880000): the
`int` product `num_cycles * CYCLE_DAYS` of jd2cal.c line 48 wraps and `jd_to_cal`
returns (5880400, 13, 0.0), whose month `cal_to_jd` cannot take; with exact
integers it returns (5880000, 1, 1), which `cal_to_jd` maps back to `jd`. -/
theorem roundtrip_jd_cal_jd_int32 :
    jd_to_cal32 2149346959.5 = { y := 5880400, m := 13, d := 0 } ∧
    jd_to_cal 2149346959.5 = { y := 5880000, m := 1, d := 1 } ∧
    cal_to_jd 5880000 1 1 = 2149346959.5 := by
  obtain ⟨_, _, _, _, _, s6, s7, s8, _⟩ := stages32_overflow 2149346959.5 floor_overflow_a
  have hc : cal_to_jd 5880000 1 1 = 2149346959.5 := by
    have e2 : completed_years_days 5880000 = 2147625900 := by decide
    rw [cal_to_jd_eq, e2, completed_months_days_one, JAN_0_YEAR_0]
    norm_num
  refine ⟨?_, ?_, hc⟩
  · rw [jd_to_cal32_eq, s6, s7, s8]
  · have e : the_month_len 5880000 1 = 31 := by decide
    exact jd_to_cal_of_cal_to_jd_eq _ _ _ _ (by decide) (by decide) (by norm_num)
      (by rw [e]; norm_num) hc

/-- C5 at the failing step 5879610 -> 5879611: year 5879610 is not a leap year
and exact integers give a step of 365 days, but the `int` sum of cal2jd.c line
42 wraps (the defect of C14) and the step is 365 - 2^32 = -4294966931. -/
theorem year_step_int32 :
    cal_to_jd32 (5879610 + 1) 1 0 - cal_to_jd32 5879610 1 0 = -4294966931 ∧
    cal_to_jd (5879610 + 1) 1 0 - cal_to_jd 5879610 1 0 = 365 ∧
    is_leap 5879610 = false := by
  have e1 : completed_years_days32 (5879610 + 1) = -2147483475 := by decide
  have e2 : completed_years_days32 5879610 = 2147483456 := by decide
  refine ⟨?_, ?_, by decide⟩
  · rw [cal_to_jd32_eq _ _ _ (by decide) (by decide),
      cal_to_jd32_eq _ _ _ (by decide) (by decide), e1, e2, completed_months_days_one,
      completed_months_days_one]
    norm_num
  · have e : year_length 5879610 = 365 := by decide
    rw [cal_to_jd_jan0_succ, e]
    norm_num

/-- C7 at the failing pair of years 5879610 < 5879611: the `int` sum of cal2jd.c
line 42 wraps (the defect of C14), so January 1 of the later year gets the
smaller Julian date. -/
theorem year_order_int32 :
    cal_to_jd32 5879610 1 1 = 2149204515.5 ∧
    cal_to_jd32 5879611 1 1 = -2145762415.5 ∧
    ¬ (cal_to_jd32 5879610 1 1 < cal_to_jd32 5879611 1 1) := by
  have e1 : completed_years_days32 5879611 = -2147483475 := by decide
  have e2 : completed_years_days32 5879610 = 2147483456 := by decide
  have h1 : cal_to_jd32 5879610 1 1 = 2149204515.5 := by
    rw [cal_to_jd32_eq _ _ _ (by decide) (by decide), e2, completed_months_days_one,
      JAN_0_YEAR_0]
    norm_num
  have h2 : cal_to_jd32 5879611 1 1 = -2145762415.5 := by
    rw [cal_to_jd32_eq _ _ _ (by decide) (by decide), e1, completed_months_days_one,
      JAN_0_YEAR_0]
    norm_num
  refine ⟨h1, h2, ?_⟩
  rw [h1, h2]
  norm_num

/-- C12 at the failing input y = 5879500: the `int` sum of cal2jd.c line 42
wraps for year 5879900 (the defect of C14), and 400 years later the Julian date
is 146097 - 2^32 days away instead of 146097. -/
theorem cycle_shift_int32 :
    cal_to_jd32 (5879500 + 400) 1 1 = cal_to_jd32 5879500 1 1 + 146097 - 4294967296 ∧
    cal_to_jd (5879500 + 400) 1 1 = cal_to_jd 5879500 1 1 + 146097 := by
  have e1 : completed_years_days32 (5879500 + 400) = -2147377920 := by decide
  have e2 : completed_years_days32 5879500 = 2147443279 := by decide
  constructor
  · rw [cal_to_jd32_eq _ _ _ (by decide) (by decide),
      cal_to_jd32_eq _ _ _ (by decide) (by decide), e1, e2, completed_months_days_one,
      completed_months_days_one, JAN_0_YEAR_0]
    norm_num
  · rw [cal_to_jd_eq, cal_to_jd_eq, completed_years_days_cycle, completed_months_days_one,
      completed_months_days_one]
    push_cast
    ring

/-- C20 at the failing input y = 5879610: the `int` sum of cal2jd.c line 42 wraps
for year 5879611 (the defect of C14), and January 1 of that year is 31 - 2^32
days after December 1 of year 5879610 instead of 31. -/
theorem month_tables_int32 :
    cal_to_jd32 (5879610 + 1) 1 1 - cal_to_jd32 5879610 12 1 = 31 - 4294967296 ∧
    cal_to_jd (5879610 + 1) 1 1 - cal_to_jd 5879610 12 1 = 31 := by
  have e1 : completed_years_days32 (5879610 + 1) = -2147483475 := by decide
  have e2 : completed_years_days32 5879610 = 2147483456 := by decide
  have e3 : completed_months_days 5879610 12 = 334 := by decide
  constructor
  · rw [cal_to_jd32_eq _ _ _ (by decide) (by decide),
      cal_to_jd32_eq _ _ _ (by decide) (by decide), e1, e2, e3, completed_months_days_one]
    norm_num
  · have e4 : completed_years_days (5879610 + 1) = 2147483821 := by decide
    have e5 : completed_years_days 5879610 = 2147483456 := by decide
    rw [cal_to_jd_eq, cal_to_jd_eq, e4, e5, e3, completed_months_days_one]
    norm_num


theorem wrap32_bounds (x : Int) : -2147483648 ≤ wrap32 x ∧ wrap32 x ≤ 2147483647 := by
  unfold wrap32
  omega

/-- Whenever the wrapped base leaves `jd_minus_base` at 2^32 or more, the year
loop runs its 400 passes and the month loop falls through. -/
theorem stages32_overflow_gen (jd : ℚ) (hlow : 4294967296 ≤ jd_minus_base32_of jd)
    (hy2 : wrap32 (num_cycles32_of jd * CYCLE_YEARS) + 400 ≤ 2147483647) :
    (year_state32_of jd).more = 400 ∧
    (year_state32_of jd).cursor = 146097 ∧
    (year_state32_of jd).year = wrap32 (num_cycles32_of jd * CYCLE_YEARS) + 400 ∧
    (month_state32_of jd).month = 13 ∧
    (month_state32_of jd).fractional_days = 0 ∧
    jd_to_cal32_passes jd = 412 := by
  have hy1 := (wrap32_bounds (num_cycles32_of jd * CYCLE_YEARS)).1
  have hfl : (2147483647 : Int) < ⌊jd_minus_base32_of jd⌋ := by
    have : ((4294967296 : Int) : ℚ) ≤ jd_minus_base32_of jd := by
      push_cast
      exact hlow
    have := Int.le_floor.mpr this
    omega
  have hc : cast32 ⌊jd_minus_base32_of jd⌋ ≤ 0 := by
    rw [cast32_of_large _ hfl]
    decide
  have hb := bulk_skip32_of_nonpos (wrap32 (num_cycles32_of jd * CYCLE_YEARS))
    (jd_minus_base32_of jd) hc
  obtain ⟨y0, hy0⟩ : ∃ y0 : Int, wrap32 (num_cycles32_of jd * CYCLE_YEARS) = y0 := ⟨_, rfl⟩
  rw [hy0] at hy1 hy2 hb
  have hcap := year_loop32_cap y0 (jd_minus_base32_of jd) hy1 hy2 400
    { more := 0, cursor := 0, year := y0 } (by simp) (by simp) (by simp)
    (by simp only; norm_num; linarith) hy1 (by simp only; omega)
  simp only at hcap
  have hys : year_state32_of jd
      = year_loop32 y0 (jd_minus_base32_of jd) { more := 0, cursor := 0, year := y0 } := by
    unfold year_state32_of
    rw [hy0, hb]
  have hyp : year_loop32_passes
      (bulk_skip32 (wrap32 (num_cycles32_of jd * CYCLE_YEARS)) (jd_minus_base32_of jd)).2
      (jd_minus_base32_of jd)
      { more := 0
        cursor := (bulk_skip32 (wrap32 (num_cycles32_of jd * CYCLE_YEARS))
          (jd_minus_base32_of jd)).1
        year := (bulk_skip32 (wrap32 (num_cycles32_of jd * CYCLE_YEARS))
          (jd_minus_base32_of jd)).2 }
      = year_loop32_passes y0 (jd_minus_base32_of jd) { more := 0, cursor := 0, year := y0 } := by
    rw [hy0, hb]
  obtain ⟨c1, c2, c3, c4⟩ := hcap
  have e400 : completed_years_days (y0 + 400) - completed_years_days (y0 + 0) = 146097 := by
    rw [completed_years_days_cycle, add_zero]
    omega
  rw [e400] at c3
  have hcur : (year_state32_of jd).cursor = 146097 := by
    rw [hys, c3]
    norm_num
  have hyear : (year_state32_of jd).year = y0 + 400 := by
    rw [hys, c2]
    norm_num
  have hfall := month_loop_fall_through (year_state32_of jd).year (jd_minus_base32_of jd) 12
    { month := 1, cursor := (year_state32_of jd).cursor, fractional_days := 0.0 }
    (by simp) (by simp) (by simp)
    (by simp only; rw [hcur]; norm_num; linarith)
  simp only at hfall
  obtain ⟨f1, f2, f3⟩ := hfall
  refine ⟨by rw [hys, c1], hcur, by rw [hy0]; exact hyear, f1, ?_, ?_⟩
  · have : (month_state32_of jd).fractional_days = 0.0 := f2
    rw [this]
    norm_num
  · unfold jd_to_cal32_passes
    rw [hyp]
    omega

theorem jd_to_cal32_passes_far :
    jd_to_cal32_passes 2193176059.5 = 412 := by
  have hf : ⌊((2193176059.5 : ℚ) - JAN_1_YEAR_0) / (CYCLE_DAYS : ℚ)⌋ = 15000 := by
    rw [CYCLE_DAYS_eq, JAN_1_YEAR_0, Int.floor_eq_iff]
    norm_num
  have hN : num_cycles32_of 2193176059.5 = 15000 := by
    unfold num_cycles32_of
    rw [hf]
    decide
  have hw : wrap32 (15000 * CYCLE_DAYS) = -2103512296 := by decide
  have hj : jd_minus_base32_of 2193176059.5 = 4294967296 := by
    unfold jd_minus_base32_of
    rw [hN, hw, JAN_1_YEAR_0]
    norm_num
  exact (stages32_overflow_gen 2193176059.5 (by rw [hj]) (by rw [hN]; decide)).2.2.2.2.2

/-- C10 at failing inputs: at jd = 2149346959.5 the `int` product of jd2cal.c
line 48 wraps, the month loop falls through and `jd_to_cal` returns month 13,
day 0.0; at jd = -2145758743.75 it returns day -4294821198.25, below 1. -/
theorem well_formed_int32 :
    (jd_to_cal32 2149346959.5).m = 13 ∧ (jd_to_cal32 2149346959.5).d = 0 ∧
    (jd_to_cal32 (-2145758743.75)).m = 1 ∧
    (jd_to_cal32 (-2145758743.75)).d = -4294821198.25 := by
  obtain ⟨_, _, _, _, _, _, s7, s8, _⟩ := stages32_overflow 2149346959.5 floor_overflow_a
  obtain ⟨hN, hj⟩ := jd_minus_base32_deep_past
  have h := (stages32_negative (-2145758743.75) (by rw [hj]; norm_num)).2.2
  refine ⟨?_, ?_, ?_, ?_⟩
  · rw [jd_to_cal32_eq]
    exact s7
  · rw [jd_to_cal32_eq]
    exact s8
  · rw [h]
  · rw [h, hj]
    norm_num

/-- C11 at the failing input jd = 2149346959.75: `jd + 1/2` has fractional part
1/4, but the `int` product of jd2cal.c line 48 wraps, the month loop falls
through and the returned day is 0.0, with fractional part 0. -/
theorem noon_convention_int32 :
    (jd_to_cal32 2149346959.75).d = 0 ∧
    Int.fract (jd_to_cal32 2149346959.75).d = 0 ∧
    Int.fract ((2149346959.75 : ℚ) + 1 / 2) = 1 / 4 := by
  obtain ⟨_, _, _, _, _, _, _, s8, _⟩ := stages32_overflow 2149346959.75 floor_overflow_b
  have hd : (jd_to_cal32 2149346959.75).d = 0 := by
    rw [jd_to_cal32_eq]
    exact s8
  refine ⟨hd, by rw [hd]; simp, ?_⟩
  rw [Int.fract_eq_iff]
  refine ⟨by norm_num, by norm_num, 2149346960, by norm_num⟩

/-- C15 at failing inputs: at jd = 2149346959.5 (January 1.0 of year 5880000,
offset 0 with exact integers) the `int` product `num_cycles * CYCLE_DAYS` of
jd2cal.c line 48 wraps and `jd_minus_base` is 2^32, not below 146097; at
jd = -2145758743.75 it is -4294821199.25, negative. -/
theorem cycle_base_int32 :
    num_cycles32_of 2149346959.5 = 14700 ∧
    jd_minus_base32_of 2149346959.5 = 4294967296 ∧
    jd_minus_base_of 2149346959.5 = 0 ∧
    num_cycles32_of (-2145758743.75) = -14700 ∧
    jd_minus_base32_of (-2145758743.75) = -4294821199.25 := by
  obtain ⟨s1, s2, _⟩ := stages32_overflow 2149346959.5 floor_overflow_a
  obtain ⟨hN, hj⟩ := jd_minus_base32_deep_past
  have hn : num_cycles_of 2149346959.5 = 14700 := floor_overflow_a
  refine ⟨s1, ?_, ?_, hN, hj⟩
  · rw [s2]
    norm_num
  · unfold jd_minus_base_of
    rw [hn, CYCLE_DAYS_eq, JAN_1_YEAR_0]
    norm_num

/-- C17 at the failing input jd = 2149346959.5: the `int` product of jd2cal.c
line 48 wraps, and when the year loop ends `cursor` is 146097 and the remaining
budget `jd_minus_base - cursor` is 4294821199, not below 366. -/
theorem year_loop_postcondition_int32 :
    (jd_to_cal32 2149346959.5).y = 5880400 ∧
    (year_state32_of 2149346959.5).year = 5880400 ∧
    (year_state32_of 2149346959.5).cursor = 146097 ∧
    jd_minus_base32_of 2149346959.5 - (year_state32_of 2149346959.5).cursor = 4294821199 := by
  obtain ⟨_, s2, _, _, s5, s6, _⟩ := stages32_overflow 2149346959.5 floor_overflow_a
  refine ⟨?_, s6, s5, ?_⟩
  · rw [jd_to_cal32_eq]
    exact s6
  · rw [s2, s5]
    norm_num

/-- C18 at the failing input jd = 2149346959.5: the `int` product of jd2cal.c
line 48 wraps and the year loop consumes 400 years: it ends with
`more = CYCLE_YEARS`, by its cap and not by its `break`. -/
theorem year_refinement_int32 :
    (year_state32_of 2149346959.5).more = 400 ∧
    ¬ ((year_state32_of 2149346959.5).more < CYCLE_YEARS) ∧
    (year_state32_of 2149346959.5).year
      - wrap32 (num_cycles32_of 2149346959.5 * CYCLE_YEARS) = 400 := by
  obtain ⟨s1, _, _, s4, _, s6, _⟩ := stages32_overflow 2149346959.5 floor_overflow_a
  refine ⟨s4, ?_, ?_⟩
  · rw [s4]
    decide
  · rw [s6, s1]
    decide

/-- C19 at failing inputs jd = 2149346959.5 and jd = 2193176059.5: the `int`
product of jd2cal.c line 48 wraps and the two loops execute their bodies
400 + 12 = 412 times. -/
theorem total_passes_int32 :
    jd_to_cal32_passes 2149346959.5 = 412 ∧ jd_to_cal32_passes 2193176059.5 = 412 :=
  ⟨(stages32_overflow 2149346959.5 floor_overflow_a).2.2.2.2.2.2.2.2, jd_to_cal32_passes_far⟩

/-- For a year within ±5879610 and a month in 1..12 no `int` operation of
`cal_to_jd` overflows: the 32-bit code computes what exact integer arithmetic
computes. -/
theorem cal_to_jd32_eq_exact (y m : Int) (d : ℚ) (hy1 : -5879610 ≤ y) (hy2 : y ≤ 5879610)
    (hm1 : 1 ≤ m) (hm2 : m ≤ 12) : cal_to_jd32 y m d = cal_to_jd y m d := by
  rw [cal_to_jd32_eq y m d hm1 hm2, cal_to_jd_eq, completed_years_days32_eq y hy1 hy2]

end JulianDate
